import Mathlib

/-! Ticket reservation engine of booking-event-be.

A shallow embedding of `internal/models/models.go`,
`internal/repository/event_repository.go`,
`internal/repository/booking_repository.go` and
`internal/service/booking_service.go`.

The database is an explicit value `DB` (the rows of `events` and `bookings`
that are not soft-deleted, plus the next value of the bookings id sequence).
Every repository method is a function from a `DB` to a result and a new `DB`.
A repository call that the database driver rejects is selected by a flag of
`Faults`; a rejected statement changes no row.  `time.Now()` is an explicit
argument `now`, an instant on an integer time line (nanoseconds).
-/

namespace BookingEvent

/-! ## models -/

/-- The three values of `models.BookingStatus`. -/
inductive BookingStatus where
  | PENDING
  | CONFIRMED
  | CANCELLED
  deriving DecidableEq, Repr

/-- An instant of `time.Time`, in nanoseconds on an integer time line. -/
abbrev Time := Int

/-- A `float64`.  Floating-point arithmetic is not interpreted: a value is
either given by its bit pattern or is the expression the code computes. -/
inductive Float64 where
  | bits (b : Nat)
  | ofInt (n : Int)
  | mul (x y : Float64)
  deriving DecidableEq, Repr

/-- The columns of `models.Event` the reservation engine reads or writes. -/
structure Event where
  ID : Int
  TotalTickets : Int
  TicketPrice : Float64
  deriving DecidableEq, Repr

/-- The columns of `models.Booking` (without the gorm bookkeeping columns). -/
structure Booking where
  ID : Int
  UserID : Int
  EventID : Int
  TicketCount : Int
  TotalPrice : Float64
  Status : BookingStatus
  ExpiresAt : Time
  ConfirmedAt : Option Time
  CancelledAt : Option Time
  deriving DecidableEq, Repr

/-- The request body `models.CreateBookingRequest`.  The `validate` struct
tags are annotations only: no code of the repository runs a validator. -/
structure CreateBookingRequest where
  EventID : Int
  TicketCount : Int
  deriving DecidableEq, Repr

/-- The errors the repositories and the booking service build with
`fmt.Errorf`, one constructor per message; a constructor with an argument
`inner` is a message that wraps another error with `%w`. -/
inductive Error where
  /-- an error reported by the database driver -/
  | database
  /-- message "event not found" -/
  | eventNotFound
  /-- message "booking not found" -/
  | bookingNotFound
  /-- message "not enough tickets available" -/
  | notEnoughTickets
  /-- message "not enough tickets available. Only %d tickets left" -/
  | notEnoughTicketsOnly (left : Int)
  /-- message "failed to create booking: %w" -/
  | failedToCreateBooking (inner : Error)
  /-- message "booking not found: %w" -/
  | bookingNotFoundWrap (inner : Error)
  /-- message "booking is not in pending status" -/
  | notInPendingStatus
  /-- message "booking has expired" -/
  | bookingHasExpired
  /-- message "failed to confirm booking: %w" -/
  | failedToConfirm (inner : Error)
  /-- message "booking already cancelled" -/
  | alreadyCancelled
  /-- message "cannot cancel confirmed booking" -/
  | cannotCancelConfirmed
  /-- message "failed to cancel booking: %w" -/
  | failedToCancel (inner : Error)
  /-- message "failed to release tickets: %w" -/
  | failedToRelease (inner : Error)
  /-- message "failed to get expired bookings: %w" -/
  | failedToGetExpired (inner : Error)
  deriving DecidableEq, Repr

/-! ## the database -/

/-- The rows the engine works on. -/
structure DB where
  events : List Event
  bookings : List Booking
  /-- next value of the auto-increment primary key of `bookings` -/
  nextBookingID : Int
  deriving DecidableEq, Repr

/-- Which store calls of one service call are rejected by the database. -/
structure Faults where
  lockForUpdate : Bool
  decrementTickets : Bool
  create : Bool
  getByID : Bool
  updateStatus : Bool
  incrementTickets : Bool
  txBegin : Bool
  txCommit : Bool
  deriving DecidableEq, Repr

/-- No store call fails. -/
def Faults.none : Faults :=
  { lockForUpdate := false, decrementTickets := false, create := false,
    getByID := false, updateStatus := false, incrementTickets := false,
    txBegin := false, txCommit := false }

/-! ## event_repository.go -/

/-- Method `eventRepository.LockForUpdate`: `SELECT ... FOR UPDATE` of the event with
the given primary key.  A missing row gives "event not found"; any other
driver error is returned as it is. -/
def eventRepository.LockForUpdate (db : DB) (fail : Bool) (eventID : Int) :
    Except Error Event :=
  if fail then .error .database
  else
    match db.events.find? (fun e => e.ID = eventID) with
    | some e => .ok e
    | none => .error .eventNotFound

/-- The `WHERE id = ? AND total_tickets >= ?` of `DecrementTickets`. -/
def decrementMatches (eventID count : Int) (e : Event) : Bool :=
  e.ID = eventID && e.TotalTickets ≥ count

/-- Method `eventRepository.DecrementTickets`:
`UPDATE events SET total_tickets = total_tickets - ? WHERE id = ? AND
total_tickets >= ?`.  `RowsAffected == 0` is tested before `result.Error`, so
a rejected statement (no row affected) also gives "not enough tickets
available". -/
def eventRepository.DecrementTickets (db : DB) (fail : Bool) (eventID count : Int) :
    DB × Option Error :=
  if fail then (db, some .notEnoughTickets)
  else
    let rowsAffected := (db.events.filter (decrementMatches eventID count)).length
    let db1 : DB := { db with events := db.events.map (fun e =>
      if decrementMatches eventID count e then
        { e with TotalTickets := e.TotalTickets - count } else e) }
    if rowsAffected = 0 then (db1, some .notEnoughTickets) else (db1, none)

/-- Method `eventRepository.IncrementTickets`:
`UPDATE events SET total_tickets = total_tickets + ? WHERE id = ?`; only the
driver error is returned, the number of affected rows is not looked at. -/
def eventRepository.IncrementTickets (db : DB) (fail : Bool) (eventID count : Int) :
    DB × Option Error :=
  if fail then (db, some .database)
  else
    ({ db with events := db.events.map (fun e =>
        if e.ID = eventID then { e with TotalTickets := e.TotalTickets + count } else e) },
     none)

/-! ## booking_repository.go -/

/-- Method `bookingRepository.Create`: inserts the row; the primary key is drawn from
the sequence and written back into the struct. -/
def bookingRepository.Create (db : DB) (fail : Bool) (booking : Booking) :
    DB × Booking × Option Error :=
  if fail then (db, booking, some .database)
  else
    let stored : Booking := { booking with ID := db.nextBookingID }
    ({ db with bookings := db.bookings ++ [stored], nextBookingID := db.nextBookingID + 1 },
     stored, none)

/-- Method `bookingRepository.GetByID`. -/
def bookingRepository.GetByID (db : DB) (fail : Bool) (id : Int) : Except Error Booking :=
  if fail then .error .database
  else
    match db.bookings.find? (fun b => b.ID = id) with
    | some b => .ok b
    | none => .error .bookingNotFound

/-- The row `UpdateStatus` writes: `status`, and `confirmed_at` or
`cancelled_at` according to the new status. -/
def applyStatus (status : BookingStatus) (now : Time) (b : Booking) : Booking :=
  match status with
  | .CONFIRMED => { b with Status := status, ConfirmedAt := some now }
  | .CANCELLED => { b with Status := status, CancelledAt := some now }
  | .PENDING => { b with Status := status }

/-- Method `bookingRepository.UpdateStatus`: `UPDATE bookings SET ... WHERE id = ?`.
The `WHERE` clause names the primary key only.  `RowsAffected == 0` is tested
before `result.Error`, so a rejected statement gives "booking not found". -/
def bookingRepository.UpdateStatus (db : DB) (fail : Bool) (now : Time) (id : Int)
    (status : BookingStatus) : DB × Option Error :=
  if fail then (db, some .bookingNotFound)
  else
    let rowsAffected := (db.bookings.filter (fun b => b.ID = id)).length
    let db1 : DB := { db with bookings := db.bookings.map (fun b =>
      if b.ID = id then applyStatus status now b else b) }
    if rowsAffected = 0 then (db1, some .bookingNotFound) else (db1, none)

/-- Method `bookingRepository.GetExpiredPending`:
`WHERE status = 'PENDING' AND expires_at < now ORDER BY expires_at ASC`. -/
def bookingRepository.GetExpiredPending (db : DB) (fail : Bool) (now : Time) :
    Except Error (List Booking) :=
  if fail then .error .database
  else
    .ok ((db.bookings.filter (fun b => b.Status = .PENDING && b.ExpiresAt < now)).insertionSort
      (fun a b => a.ExpiresAt ≤ b.ExpiresAt))

/-! ## booking_service.go -/

/-- The constant `time.Minute`, in nanoseconds. -/
def Minute : Int := 60 * 1000000000

/-- Two's-complement wrap of an `int64` result. -/
def wrapInt64 (x : Int) : Int := (x + 2 ^ 63) % 2 ^ 64 - 2 ^ 63

/-- The configuration field of `bookingService` (the repositories and the
database handle are the `DB` argument of each method). -/
structure bookingService where
  /-- a `time.Duration`: nanoseconds in an `int64` -/
  timeout : Int
  deriving DecidableEq, Repr

/-- Constructor `NewBookingService`: `time.Duration(timeoutMinutes) * time.Minute`. -/
def NewBookingService (timeoutMinutes : Int) : bookingService :=
  { timeout := wrapInt64 (timeoutMinutes * Minute) }

/-- The call `s.db.Transaction(func(tx *gorm.DB) error ...)` as the service uses it.
gorm opens a transaction, hands its handle `tx` to the closure, commits when
the closure returns nil and rolls back otherwise.  Both closures of the
service ignore `tx`: every statement in them goes through a repository, and
the repositories keep the handle they were built with
(`NewEventRepository(db)`, `NewBookingRepository(db)`, methods run on
`r.db`).  So the statements of `body` are executed outside the transaction,
each committed on its own, and neither commit nor rollback changes a row.
`captured` is the initial value of the variables of the enclosing function
that the closure assigns, and `body` returns their final value. -/
def Transaction {α : Type} (db : DB) (f : Faults) (captured : α)
    (body : DB → DB × α × Option Error) : DB × α × Option Error :=
  if f.txBegin then (db, captured, some .database)
  else
    match body db with
    | (db1, a, some e) => (db1, a, some e)
    | (db1, a, none) => if f.txCommit then (db1, a, some .database) else (db1, a, none)

/-- Method `bookingService.CreateBooking`.  The result is the new database, the
returned `*models.Booking` (nil = `none`) and the returned error. -/
def bookingService.CreateBooking (s : bookingService) (db : DB) (now : Time) (f : Faults)
    (userID : Int) (req : CreateBookingRequest) : DB × Option Booking × Option Error :=
  Transaction db f (none : Option Booking) (fun d =>
    match eventRepository.LockForUpdate d f.lockForUpdate req.EventID with
    | .error _ => (d, none, some .eventNotFound)
    | .ok event =>
      if event.TotalTickets < req.TicketCount then
        (d, none, some (.notEnoughTicketsOnly event.TotalTickets))
      else
        match eventRepository.DecrementTickets d f.decrementTickets req.EventID
            req.TicketCount with
        | (d1, some e) => (d1, none, some e)
        | (d1, none) =>
          let booking : Booking :=
            { ID := 0, UserID := userID, EventID := req.EventID,
              TicketCount := req.TicketCount,
              TotalPrice := Float64.mul (Float64.ofInt req.TicketCount) event.TicketPrice,
              Status := .PENDING, ExpiresAt := now + s.timeout,
              ConfirmedAt := none, CancelledAt := none }
          match bookingRepository.Create d1 f.create booking with
          | (d2, b, some e) => (d2, some b, some (.failedToCreateBooking e))
          | (d2, b, none) => (d2, some b, none))

/-- Method `bookingService.ConfirmPayment`. -/
def bookingService.ConfirmPayment (db : DB) (now : Time) (f : Faults) (bookingID : Int) :
    DB × Option Error :=
  match bookingRepository.GetByID db f.getByID bookingID with
  | .error e => (db, some (.bookingNotFoundWrap e))
  | .ok booking =>
    if booking.Status ≠ .PENDING then (db, some .notInPendingStatus)
    else if now > booking.ExpiresAt then (db, some .bookingHasExpired)
    else
      match bookingRepository.UpdateStatus db f.updateStatus now bookingID .CONFIRMED with
      | (db1, some e) => (db1, some (.failedToConfirm e))
      | (db1, none) => (db1, none)

/-- Method `bookingService.CancelBooking`. -/
def bookingService.CancelBooking (db : DB) (now : Time) (f : Faults) (bookingID : Int) :
    DB × Option Error :=
  match bookingRepository.GetByID db f.getByID bookingID with
  | .error e => (db, some (.bookingNotFoundWrap e))
  | .ok booking =>
    if booking.Status = .CANCELLED then (db, some .alreadyCancelled)
    else if booking.Status = .CONFIRMED then (db, some .cannotCancelConfirmed)
    else
      let r := Transaction db f () (fun d =>
        match bookingRepository.UpdateStatus d f.updateStatus now bookingID .CANCELLED with
        | (d1, some e) => (d1, (), some (.failedToCancel e))
        | (d1, none) =>
          match eventRepository.IncrementTickets d1 f.incrementTickets booking.EventID
              booking.TicketCount with
          | (d2, some e) => (d2, (), some (.failedToRelease e))
          | (d2, none) => (d2, (), none))
      (r.1, r.2.2)

/-- The loop of `ProcessExpiredBookings`: `CancelBooking` on each booking of
the list in order, an error of one call being printed and dropped. -/
def cancelAll (now : Time) (faults : Int → Faults) : DB → List Booking → DB
  | db, [] => db
  | db, b :: rest =>
    cancelAll now faults (bookingService.CancelBooking db now (faults b.ID) b.ID).1 rest

/-- Method `bookingService.ProcessExpiredBookings`; `faults id` are the rejected
store calls while the booking `id` is being cancelled. -/
def bookingService.ProcessExpiredBookings (db : DB) (now : Time) (failList : Bool)
    (faults : Int → Faults) : DB × Option Error :=
  match bookingRepository.GetExpiredPending db failList now with
  | .error e => (db, some (.failedToGetExpired e))
  | .ok expiredBookings => (cancelAll now faults db expiredBookings, none)

/-! ## sequential executions -/

/-- A call of one of the four mutating operations of the booking service. -/
inductive Call where
  | createBooking (userID : Int) (req : CreateBookingRequest)
  | confirmPayment (bookingID : Int)
  | cancelBooking (bookingID : Int)
  | processExpiredBookings
  deriving DecidableEq, Repr

/-- What a call meets when it runs: the reading of the clock and the store
calls that fail (`sweepFaults id` while the reclaimer cancels booking `id`). -/
structure Env where
  now : Time
  faults : Faults
  failList : Bool
  sweepFaults : Int → Faults

/-- The environment at time `now` in which no store call fails. -/
def Env.ok (now : Time) : Env :=
  { now := now, faults := Faults.none, failList := false, sweepFaults := fun _ => Faults.none }

/-- The database after one call. -/
def exec (s : bookingService) (db : DB) (env : Env) : Call → DB
  | .createBooking userID req => (s.CreateBooking db env.now env.faults userID req).1
  | .confirmPayment id => (bookingService.ConfirmPayment db env.now env.faults id).1
  | .cancelBooking id => (bookingService.CancelBooking db env.now env.faults id).1
  | .processExpiredBookings =>
    (bookingService.ProcessExpiredBookings db env.now env.failList env.sweepFaults).1

/-- The database after a sequence of calls executed one after the other. -/
def run (s : bookingService) : DB → List (Env × Call) → DB
  | db, [] => db
  | db, (env, c) :: rest => run s (exec s db env c) rest

/-- The same, every call at its own clock reading and no store call failing. -/
def runOk (s : bookingService) (db : DB) (calls : List (Time × Call)) : DB :=
  run s db (calls.map (fun tc => (Env.ok tc.1, tc.2)))

/-- The ticket count a booking holds of an event: its `TicketCount` when it
belongs to the event and is PENDING or CONFIRMED, nothing otherwise. -/
def held (eventID : Int) (b : Booking) : Int :=
  if b.EventID = eventID ∧ (b.Status = .PENDING ∨ b.Status = .CONFIRMED) then b.TicketCount
  else 0

/-- Sum of `TicketCount` over the PENDING and CONFIRMED bookings of an event. -/
def heldTickets (db : DB) (eventID : Int) : Int :=
  (db.bookings.map (held eventID)).sum

/-- The stored remaining count of an event (`Event.TotalTickets`), if the
event exists. -/
def remaining (db : DB) (eventID : Int) : Option Int :=
  (db.events.find? (fun e => e.ID = eventID)).map (fun e => e.TotalTickets)

/-- The stored status of a booking, if the booking exists. -/
def statusOf (db : DB) (bookingID : Int) : Option BookingStatus :=
  (db.bookings.find? (fun b => b.ID = bookingID)).map (fun b => b.Status)

/-! ## concurrent executions -/

/-- Where a CreateBooking call stands between two of its store calls:
not begun; the event read and found sufficient (`event` is the local variable
of the closure); the tickets decremented; returned, with the booking and the
error it returned. -/
inductive Pc where
  | start
  | locked (event : Event)
  | decremented (event : Event)
  | done (booking : Option Booking) (err : Option Error)
  deriving DecidableEq, Repr

/-- A CreateBooking call running concurrently with others: its arguments, the
reading of the clock it will take, the store calls that fail for it, and the
point it has reached. -/
structure InFlight where
  userID : Int
  req : CreateBookingRequest
  now : Time
  faults : Faults
  pc : Pc
  deriving DecidableEq, Repr

/-- The next store call of a CreateBooking call in flight, executed on the
current database as one indivisible statement.  The three steps are the three
repository calls of `bookingService.CreateBooking`: LockForUpdate with the
availability test, DecrementTickets, and Create with the commit.  The row lock
of LockForUpdate is taken on the repository handle, outside the transaction,
and ends with its statement, so it holds back no other call.  Opening and
committing the transaction write no row; they are part of the first and of
the last step. -/
def InFlight.step (s : bookingService) (db : DB) (t : InFlight) : DB × InFlight :=
  match t.pc with
  | .start =>
    if t.faults.txBegin then (db, { t with pc := .done none (some .database) })
    else
      match eventRepository.LockForUpdate db t.faults.lockForUpdate t.req.EventID with
      | .error _ => (db, { t with pc := .done none (some .eventNotFound) })
      | .ok event =>
        if event.TotalTickets < t.req.TicketCount then
          (db, { t with pc := .done none (some (.notEnoughTicketsOnly event.TotalTickets)) })
        else (db, { t with pc := .locked event })
  | .locked event =>
    match eventRepository.DecrementTickets db t.faults.decrementTickets t.req.EventID
        t.req.TicketCount with
    | (d1, some e) => (d1, { t with pc := .done none (some e) })
    | (d1, none) => (d1, { t with pc := .decremented event })
  | .decremented event =>
    let booking : Booking :=
      { ID := 0, UserID := t.userID, EventID := t.req.EventID,
        TicketCount := t.req.TicketCount,
        TotalPrice := Float64.mul (Float64.ofInt t.req.TicketCount) event.TicketPrice,
        Status := .PENDING, ExpiresAt := t.now + s.timeout,
        ConfirmedAt := none, CancelledAt := none }
    match bookingRepository.Create db t.faults.create booking with
    | (d2, b, some e) => (d2, { t with pc := .done (some b) (some (.failedToCreateBooking e)) })
    | (d2, b, none) =>
      if t.faults.txCommit then (d2, { t with pc := .done (some b) (some .database) })
      else (d2, { t with pc := .done (some b) none })
  | .done _ _ => (db, t)

/-- One step of the call number `i` (nothing when there is no such call). -/
def stepAt (s : bookingService) (cfg : DB × List InFlight) (i : Nat) : DB × List InFlight :=
  match cfg.2[i]? with
  | none => cfg
  | some t => ((t.step s cfg.1).1, cfg.2.set i (t.step s cfg.1).2)

/-- The database and the calls after an interleaving: `schedule` names, step
after step, the call whose next store call is executed. -/
def runSchedule (s : bookingService) (cfg : DB × List InFlight) (schedule : List Nat) :
    DB × List InFlight :=
  schedule.foldl (stepAt s) cfg

/-- A call whose DecrementTickets has succeeded. -/
def InFlight.tookTickets (t : InFlight) : Bool :=
  match t.pc with
  | .decremented _ => true
  | .done (some _) _ => true
  | _ => false

/-- A call that has returned a nil error: a successful reservation. -/
def InFlight.succeeded (t : InFlight) : Bool :=
  match t.pc with
  | .done _ none => true
  | _ => false

/-- Sum of the ticket counts of the calls that have decremented the event. -/
def takenFor (eventID : Int) (ts : List InFlight) : Int :=
  (ts.map (fun t =>
    if t.tookTickets = true ∧ t.req.EventID = eventID then t.req.TicketCount else 0)).sum

/-- Sum of the ticket counts of the successful reservations of the event. -/
def soldFor (eventID : Int) (ts : List InFlight) : Int :=
  (ts.map (fun t =>
    if t.succeeded = true ∧ t.req.EventID = eventID then t.req.TicketCount else 0)).sum

/-- Number of successful reservations. -/
def successes (ts : List InFlight) : Nat :=
  (ts.filter (fun t => t.succeeded)).length

/-! ## auxiliary definitions for the proofs -/

/-- Sum of held tickets and remaining count of an event, if it exists. -/
def total (db : DB) (eventID : Int) : Option Int :=
  (remaining db eventID).map (fun r => heldTickets db eventID + r)

/-- The bookings part of well-formedness. -/
def DB.bookingsWF (db : DB) : Prop :=
  (db.bookings.map (fun b => b.ID)).Nodup ∧ ∀ b ∈ db.bookings, b.ID < db.nextBookingID

/-- The database after a successful `CancelBooking` of the stored booking `b`. -/
def cancelledDB (db : DB) (now : Time) (b : Booking) : DB :=
  { events := db.events.map (fun e =>
      if e.ID = b.EventID then { e with TotalTickets := e.TotalTickets + b.TicketCount } else e),
    bookings := db.bookings.map (fun x =>
      if x.ID = b.ID then applyStatus .CANCELLED now x else x),
    nextBookingID := db.nextBookingID }

/-- The database after a successful `ConfirmPayment` of the stored booking `b`. -/
def confirmedDB (db : DB) (now : Time) (b : Booking) : DB :=
  { db with bookings := db.bookings.map (fun x =>
      if x.ID = b.ID then applyStatus .CONFIRMED now x else x) }

/-- The booking a successful `CreateBooking` stores and returns. -/
def newBooking (s : bookingService) (db : DB) (now : Time) (userID : Int)
    (req : CreateBookingRequest) (ev : Event) : Booking :=
  { ID := db.nextBookingID, UserID := userID, EventID := req.EventID,
    TicketCount := req.TicketCount,
    TotalPrice := Float64.mul (Float64.ofInt req.TicketCount) ev.TicketPrice,
    Status := .PENDING, ExpiresAt := now + s.timeout, ConfirmedAt := none, CancelledAt := none }

/-- The database after a successful `CreateBooking` on the event `ev`. -/
def createdDB (s : bookingService) (db : DB) (now : Time) (userID : Int)
    (req : CreateBookingRequest) (ev : Event) : DB :=
  { events := db.events.map (fun e =>
      if decrementMatches req.EventID req.TicketCount e then
        { e with TotalTickets := e.TotalTickets - req.TicketCount } else e),
    bookings := db.bookings ++ [newBooking s db now userID req ev],
    nextBookingID := db.nextBookingID + 1 }

/-- No event has a negative remaining count and no booking a negative ticket count. -/
def DB.nonneg (db : DB) : Prop :=
  (∀ e ∈ db.events, 0 ≤ e.TotalTickets) ∧ (∀ b ∈ db.bookings, 0 ≤ b.TicketCount)

/-- A call that asks for no negative number of tickets. -/
def Call.countNonneg : Call → Prop
  | .createBooking _ req => 0 ≤ req.TicketCount
  | _ => True

/-- What a call may do to the stored booking of each id: keep it, or rewrite a
PENDING booking with `applyStatus` to CONFIRMED or CANCELLED. -/
def rowsFrame (l1 l2 : List Booking) : Prop :=
  ∀ id b, l1.find? (fun b => b.ID = id) = some b →
    l2.find? (fun b => b.ID = id) = some b ∨
    (b.Status = BookingStatus.PENDING ∧ ∃ st t,
      (st = BookingStatus.CONFIRMED ∨ st = BookingStatus.CANCELLED) ∧
      l2.find? (fun b => b.ID = id) = some (applyStatus st t b))

/-- The loop of `ProcessExpiredBookings` together with the record of its
iterations: for each booking of the list, in order, the id passed to
`CancelBooking` and the error that call returned (the loop prints it when it
is not nil and goes on). -/
def cancelAllTrace (now : Time) (faults : Int → Faults) :
    DB → List Booking → DB × List (Int × Option Error)
  | db, [] => (db, [])
  | db, b :: rest =>
    ((cancelAllTrace now faults (bookingService.CancelBooking db now (faults b.ID) b.ID).1 rest).1,
     (b.ID, (bookingService.CancelBooking db now (faults b.ID) b.ID).2) ::
       (cancelAllTrace now faults
         (bookingService.CancelBooking db now (faults b.ID) b.ID).1 rest).2)

/-- A booking the reclaim sweep at time `now` picks up: PENDING with its
deadline strictly before `now` (the `WHERE` clause of GetExpiredPending). -/
def reclaimable (now : Time) (b : Booking) : Bool :=
  b.Status = BookingStatus.PENDING && b.ExpiresAt < now

/-- Sum of the ticket counts of the reclaimable bookings of an event. -/
def reclaimedTickets (db : DB) (now : Time) (eventID : Int) : Int :=
  ((db.bookings.filter (fun b => reclaimable now b && b.EventID = eventID)).map
    (fun b => b.TicketCount)).sum

/-- Sum of the ticket counts of the bookings of a list that belong to an event. -/
def ticketsFor (l : List Booking) (eventID : Int) : Int :=
  ((l.filter (fun b => b.EventID = eventID)).map (fun b => b.TicketCount)).sum

/-- The fields of a booking that are set at creation: `b2` has the id, user,
event, ticket count, total price and deadline of `b`. -/
def fixedFields (b b2 : Booking) : Prop :=
  b2.ID = b.ID ∧ b2.UserID = b.UserID ∧ b2.EventID = b.EventID ∧
  b2.TicketCount = b.TicketCount ∧ b2.TotalPrice = b.TotalPrice ∧ b2.ExpiresAt = b.ExpiresAt

/-- The tickets a call has taken from an event. -/
def takenW (eventID : Int) (t : InFlight) : Int :=
  if t.tookTickets = true ∧ t.req.EventID = eventID then t.req.TicketCount else 0

/-- The tickets of a call that count as sold for an event. -/
def soldW (eventID : Int) (t : InFlight) : Int :=
  if t.succeeded = true ∧ t.req.EventID = eventID then t.req.TicketCount else 0

/-- No call has returned both a nil booking and a nil error. -/
def InFlight.sound (t : InFlight) : Prop := t.pc ≠ Pc.done none none

/-- Unique event ids, sound calls, and `remaining + taken = K` with a
non-negative remaining count. -/
def SchedInv (eventID K : Int) (cfg : DB × List InFlight) : Prop :=
  (cfg.1.events.map (fun e => e.ID)).Nodup ∧ (∀ t ∈ cfg.2, t.sound) ∧
  ∃ r, remaining cfg.1 eventID = some r ∧ 0 ≤ r ∧ r + takenFor eventID cfg.2 = K

/-! ## sample states -/

/-- Event 1 with 10 remaining tickets. -/
def sampleEvent : Event := { ID := 1, TotalTickets := 10, TicketPrice := Float64.bits 0 }

/-- One event, no booking. -/
def sampleDB : DB := { events := [sampleEvent], bookings := [], nextBookingID := 1 }

/-- The service with the default timeout of 15 minutes. -/
def sampleService : bookingService := NewBookingService 15

/-- The state of scenario B after the first booking of 3 of the 5 tickets. -/
def scenarioB : DB :=
  (sampleService.CreateBooking
    { events := [{ ID := 1, TotalTickets := 5, TicketPrice := Float64.bits 0 }],
      bookings := [], nextBookingID := 1 } 0 Faults.none 7 { EventID := 1, TicketCount := 3 }).1

/-- A PENDING booking of 2 tickets on event 1 with deadline 100. -/
def pendingBooking : Booking :=
  { ID := 1, UserID := 7, EventID := 1, TicketCount := 2,
    TotalPrice := Float64.mul (Float64.ofInt 2) (Float64.bits 0),
    Status := BookingStatus.PENDING, ExpiresAt := 100, ConfirmedAt := none, CancelledAt := none }

/-- Event 1 with 8 tickets remaining and the booking `pendingBooking`. -/
def pendingDB : DB :=
  { events := [{ ID := 1, TotalTickets := 8, TicketPrice := Float64.bits 0 }],
    bookings := [pendingBooking], nextBookingID := 2 }

/-- The sample event after a booking of 3 of its 10 tickets at time 0
(booking 1, PENDING, deadline 15 minutes). -/
def bookedDB : DB :=
  (sampleService.CreateBooking sampleDB 0 Faults.none 7 { EventID := 1, TicketCount := 3 }).1

/-- A CONFIRMED booking of 3 tickets on event 1. -/
def confirmedBooking : Booking :=
  { ID := 1, UserID := 7, EventID := 1, TicketCount := 3,
    TotalPrice := Float64.mul (Float64.ofInt 3) (Float64.bits 0),
    Status := BookingStatus.CONFIRMED, ExpiresAt := 100, ConfirmedAt := some 50,
    CancelledAt := none }

/-- Event 1 with 7 tickets remaining and the booking `confirmedBooking`. -/
def confirmedSampleDB : DB :=
  { events := [{ ID := 1, TotalTickets := 7, TicketPrice := Float64.bits 0 }],
    bookings := [confirmedBooking], nextBookingID := 2 }

/-- Two PENDING bookings on event 1, with deadlines 100 and 200. -/
def twoExpiredDB : DB :=
  { events := [{ ID := 1, TotalTickets := 5, TicketPrice := Float64.bits 0 }],
    bookings :=
      [{ ID := 1, UserID := 7, EventID := 1, TicketCount := 2,
         TotalPrice := Float64.mul (Float64.ofInt 2) (Float64.bits 0),
         Status := BookingStatus.PENDING, ExpiresAt := 100, ConfirmedAt := none,
         CancelledAt := none },
       { ID := 2, UserID := 8, EventID := 1, TicketCount := 3,
         TotalPrice := Float64.mul (Float64.ofInt 3) (Float64.bits 0),
         Status := BookingStatus.PENDING, ExpiresAt := 200, ConfirmedAt := none,
         CancelledAt := none }],
    nextBookingID := 3 }

/-- The status update fails while booking 1 is cancelled, nothing else fails. -/
def failFirst (id : Int) : Faults :=
  if id = 1 then { Faults.none with updateStatus := true } else Faults.none

/-- The sample event after a booking of 2 of its 10 tickets at time 0, with
the timeout of 15 minutes. -/
def bookedTwoDB : DB :=
  (sampleService.CreateBooking sampleDB 0 Faults.none 7 { EventID := 1, TicketCount := 2 }).1

/-- A call that has not begun, with no store call failing. -/
def InFlight.fresh (userID eventID count : Int) : InFlight :=
  { userID := userID, req := { EventID := eventID, TicketCount := count }, now := 0,
    faults := Faults.none, pc := .start }

/-- The calls of `TestConcurrentBookings`: 15 users ask for 1 ticket each. -/
def fifteenCalls : List InFlight :=
  (List.range 15).map (fun i => InFlight.fresh (i + 1) 1 1)

/-- Every call reads the event, then every call decrements, then every call
inserts its booking. -/
def roundRobin : List Nat :=
  List.range 15 ++ List.range 15 ++ List.range 15

/-- A call that asks for -5 tickets and whose ledger insert fails, and a call
that asks for 15 tickets. -/
def failedNegativeThenLarge : List InFlight :=
  [{ InFlight.fresh 7 1 (-5) with faults := { Faults.none with create := true } },
   InFlight.fresh 8 1 15]

/-- A call that asks for -5 tickets and a call that asks for 15 tickets, no
store call failing. -/
def negativeThenLarge : List InFlight :=
  [InFlight.fresh 7 1 (-5), InFlight.fresh 8 1 15]

/-! ## lemmas on rows -/

theorem find_map_pres {α : Type} (p : α → Bool) (g : α → α) (h : ∀ x, p (g x) = p x)
    (l : List α) : (l.map g).find? p = (l.find? p).map g := by
  induction l with
  | nil => rfl
  | cons a t ih =>
    simp only [List.map_cons, List.find?_cons, h]
    cases p a <;> simp [ih]

theorem find_some_mem {α : Type} (p : α → Bool) (l : List α) (a : α)
    (h : l.find? p = some a) : a ∈ l ∧ p a = true :=
  ⟨List.mem_of_find?_eq_some h, List.find?_some h⟩

/-- Rewriting the rows with a given key changes a sum of weights by the
change of weight of the one row that has the key. -/
theorem sum_map_update (w : Booking → Int) (g : Booking → Booking) (id : Int) :
    ∀ (l : List Booking), (l.map (fun b => b.ID)).Nodup → ∀ b ∈ l, b.ID = id →
      ((l.map (fun x => if x.ID = id then g x else x)).map w).sum
        = (l.map w).sum - w b + w (g b) := by
  intro l
  induction l with
  | nil => intro _ b hb; simp at hb
  | cons a t ih =>
    intro hnd b hb hid
    simp only [List.map_cons, List.nodup_cons, List.mem_map, not_exists, not_and] at hnd
    rcases List.mem_cons.1 hb with rfl | hbt
    · have hrest : t.map (fun x => if x.ID = id then g x else x) = t := by
        conv_rhs => rw [← List.map_id t]
        apply List.map_congr_left
        intro x hx
        have : x.ID ≠ id := fun hxe => hnd.1 x hx (hxe.trans hid.symm)
        simp [this]
      simp only [List.map_cons, hid, if_true, hrest, List.sum_cons]
      ring
    · have ha : a.ID ≠ id := fun hae => hnd.1 b hbt (hid.trans hae.symm)
      simp only [List.map_cons, ha, if_false, List.sum_cons, ih hnd.2 b hbt hid]
      ring

theorem applyStatus_ID (st : BookingStatus) (now : Time) (b : Booking) :
    (applyStatus st now b).ID = b.ID := by
  cases st <;> rfl

theorem applyStatus_Status (st : BookingStatus) (now : Time) (b : Booking) :
    (applyStatus st now b).Status = st := by
  cases st <;> rfl

theorem applyStatus_EventID (st : BookingStatus) (now : Time) (b : Booking) :
    (applyStatus st now b).EventID = b.EventID := by
  cases st <;> rfl

theorem applyStatus_TicketCount (st : BookingStatus) (now : Time) (b : Booking) :
    (applyStatus st now b).TicketCount = b.TicketCount := by
  cases st <;> rfl

theorem map_ID_update (g : Booking → Booking) (hg : ∀ b, (g b).ID = b.ID) (id : Int)
    (l : List Booking) :
    (l.map (fun x => if x.ID = id then g x else x)).map (fun b => b.ID)
      = l.map (fun b => b.ID) := by
  rw [List.map_map]
  apply List.map_congr_left
  intro x _
  by_cases hx : x.ID = id <;> simp [hx, hg]

theorem filter_length_ne_zero {α : Type} (p : α → Bool) (l : List α) (a : α)
    (ha : a ∈ l) (hp : p a = true) : (l.filter p).length ≠ 0 := by
  have : a ∈ l.filter p := List.mem_filter.2 ⟨ha, hp⟩
  intro h
  rw [List.length_eq_zero] at h
  rw [h] at this
  simp at this

theorem UpdateStatus_found (db : DB) (now : Time) (id : Int) (st : BookingStatus) (b : Booking)
    (hfind : db.bookings.find? (fun b => b.ID = id) = some b) :
    bookingRepository.UpdateStatus db false now id st =
      ({ db with bookings := db.bookings.map (fun x =>
          if x.ID = id then applyStatus st now x else x) }, none) := by
  have hm := find_some_mem _ _ _ hfind
  have hne := filter_length_ne_zero (fun b : Booking => decide (b.ID = id)) db.bookings b hm.1 hm.2
  simp only [bookingRepository.UpdateStatus, Bool.false_eq_true, if_false, hne]

theorem CancelBooking_pending (db : DB) (now : Time) (id : Int) (b : Booking)
    (hfind : db.bookings.find? (fun b => b.ID = id) = some b) (hst : b.Status = .PENDING) :
    bookingService.CancelBooking db now Faults.none id = (cancelledDB db now b, none) := by
  have hid : b.ID = id := by simpa using (find_some_mem _ _ _ hfind).2
  simp only [bookingService.CancelBooking, bookingRepository.GetByID, Faults.none,
    Bool.false_eq_true, if_false, hfind, hst, Transaction, UpdateStatus_found db now id _ b hfind,
    eventRepository.IncrementTickets, cancelledDB, hid]
  simp

theorem CancelBooking_cases (db : DB) (now : Time) (id : Int) :
    (bookingService.CancelBooking db now Faults.none id).1 = db ∨
    ∃ b, db.bookings.find? (fun b => b.ID = id) = some b ∧ b.Status = .PENDING ∧
      bookingService.CancelBooking db now Faults.none id = (cancelledDB db now b, none) := by
  cases hfind : db.bookings.find? (fun b => b.ID = id) with
  | none =>
    left
    simp [bookingService.CancelBooking, bookingRepository.GetByID, Faults.none, hfind]
  | some b =>
    cases hst : b.Status with
    | PENDING => exact Or.inr ⟨b, rfl, hst, CancelBooking_pending db now id b hfind hst⟩
    | CONFIRMED =>
      left
      simp [bookingService.CancelBooking, bookingRepository.GetByID, Faults.none, hfind, hst]
    | CANCELLED =>
      left
      simp [bookingService.CancelBooking, bookingRepository.GetByID, Faults.none, hfind, hst]

theorem ConfirmPayment_cases (db : DB) (now : Time) (id : Int) :
    (bookingService.ConfirmPayment db now Faults.none id).1 = db ∨
    ∃ b, db.bookings.find? (fun b => b.ID = id) = some b ∧ b.Status = .PENDING ∧
      ¬ now > b.ExpiresAt ∧
      bookingService.ConfirmPayment db now Faults.none id = (confirmedDB db now b, none) := by
  cases hfind : db.bookings.find? (fun b => b.ID = id) with
  | none =>
    left
    simp [bookingService.ConfirmPayment, bookingRepository.GetByID, Faults.none, hfind]
  | some b =>
    have hid : b.ID = id := by simpa using (find_some_mem _ _ _ hfind).2
    by_cases hst : b.Status = .PENDING
    · by_cases hexp : now > b.ExpiresAt
      · left
        simp [bookingService.ConfirmPayment, bookingRepository.GetByID, Faults.none, hfind, hst,
          hexp]
      · right
        refine ⟨b, rfl, hst, hexp, ?_⟩
        simp only [bookingService.ConfirmPayment, bookingRepository.GetByID, Faults.none,
          Bool.false_eq_true, if_false, hfind, hst, hexp, ne_eq, not_true_eq_false,
          UpdateStatus_found db now id _ b hfind, confirmedDB, hid]
    · left
      simp [bookingService.ConfirmPayment, bookingRepository.GetByID, Faults.none, hfind, hst]

theorem DecrementTickets_found (db : DB) (id count : Int) (ev : Event)
    (hfind : db.events.find? (fun e => e.ID = id) = some ev)
    (hge : ¬ ev.TotalTickets < count) :
    eventRepository.DecrementTickets db false id count =
      ({ db with events := db.events.map (fun e =>
          if decrementMatches id count e then
            { e with TotalTickets := e.TotalTickets - count } else e) }, none) := by
  have hm := find_some_mem _ _ _ hfind
  have hid : ev.ID = id := by simpa using hm.2
  have hmatch : decrementMatches id count ev = true := by
    simp only [decrementMatches, hid, decide_True, Bool.true_and, decide_eq_true_eq]
    omega
  have hne := filter_length_ne_zero (decrementMatches id count) db.events ev hm.1 hmatch
  simp only [eventRepository.DecrementTickets, Bool.false_eq_true, if_false, hne]

theorem CreateBooking_found (s : bookingService) (db : DB) (now : Time) (userID : Int)
    (req : CreateBookingRequest) (ev : Event)
    (hfind : db.events.find? (fun e => e.ID = req.EventID) = some ev)
    (hge : ¬ ev.TotalTickets < req.TicketCount) :
    s.CreateBooking db now Faults.none userID req =
      (createdDB s db now userID req ev, some (newBooking s db now userID req ev), none) := by
  simp only [bookingService.CreateBooking, Transaction, Faults.none, Bool.false_eq_true,
    if_false, eventRepository.LockForUpdate, hfind, hge,
    DecrementTickets_found db req.EventID req.TicketCount ev hfind hge,
    bookingRepository.Create, createdDB, newBooking]

theorem CreateBooking_cases (s : bookingService) (db : DB) (now : Time) (userID : Int)
    (req : CreateBookingRequest) :
    (s.CreateBooking db now Faults.none userID req).1 = db ∨
    ∃ ev, db.events.find? (fun e => e.ID = req.EventID) = some ev ∧
      ¬ ev.TotalTickets < req.TicketCount ∧
      s.CreateBooking db now Faults.none userID req =
        (createdDB s db now userID req ev, some (newBooking s db now userID req ev), none) := by
  cases hfind : db.events.find? (fun e => e.ID = req.EventID) with
  | none =>
    left
    simp [bookingService.CreateBooking, Transaction, Faults.none, eventRepository.LockForUpdate,
      hfind]
  | some ev =>
    by_cases hlt : ev.TotalTickets < req.TicketCount
    · left
      simp [bookingService.CreateBooking, Transaction, Faults.none,
        eventRepository.LockForUpdate, hfind, hlt]
    · exact Or.inr ⟨ev, rfl, hlt, CreateBooking_found s db now userID req ev hfind hlt⟩

/-! ### the conserved quantity -/

theorem bookingsWF_update (db : DB) (g : Booking → Booking) (hg : ∀ b, (g b).ID = b.ID)
    (id : Int) (evs : List Event) (h : db.bookingsWF) :
    DB.bookingsWF (DB.mk evs (db.bookings.map (fun x => if x.ID = id then g x else x))
      db.nextBookingID) := by
  refine ⟨?_, ?_⟩
  · show ((db.bookings.map _).map _).Nodup
    rw [map_ID_update g hg]
    exact h.1
  · intro b hb
    simp only [List.mem_map] at hb
    obtain ⟨x, hx, rfl⟩ := hb
    by_cases hxe : x.ID = id
    · simp only [hxe, if_true, hg]
      rw [← hxe]
      exact h.2 x hx
    · simp only [hxe, if_false]
      exact h.2 x hx

theorem bookingsWF_cancelledDB (db : DB) (now : Time) (b : Booking) (h : db.bookingsWF) :
    (cancelledDB db now b).bookingsWF :=
  bookingsWF_update db _ (applyStatus_ID _ _) b.ID _ h

theorem bookingsWF_confirmedDB (db : DB) (now : Time) (b : Booking) (h : db.bookingsWF) :
    (confirmedDB db now b).bookingsWF :=
  bookingsWF_update db _ (applyStatus_ID _ _) b.ID _ h

theorem bookingsWF_createdDB (s : bookingService) (db : DB) (now : Time) (userID : Int)
    (req : CreateBookingRequest) (ev : Event) (h : db.bookingsWF) :
    (createdDB s db now userID req ev).bookingsWF := by
  refine ⟨?_, ?_⟩
  · show ((db.bookings ++ [newBooking s db now userID req ev]).map _).Nodup
    rw [List.map_append, List.nodup_append]
    refine ⟨h.1, by simp, ?_⟩
    intro a ha hb
    simp only [List.map_cons, List.map_nil, List.mem_singleton, newBooking] at hb
    simp only [List.mem_map] at ha
    obtain ⟨x, hx, rfl⟩ := ha
    have := h.2 x hx
    omega
  · intro b hb
    show b.ID < db.nextBookingID + 1
    rcases List.mem_append.1 hb with hb | hb
    · have := h.2 b hb
      omega
    · simp only [List.mem_singleton] at hb
      subst hb
      simp [newBooking]

theorem remaining_map (db : DB) (id : Int) (g : Event → Event) (hg : ∀ e, (g e).ID = e.ID)
    (bs : List Booking) (n : Int) :
    remaining { events := db.events.map g, bookings := bs, nextBookingID := n } id
      = (db.events.find? (fun e => e.ID = id)).map (fun e => (g e).TotalTickets) := by
  unfold remaining
  show Option.map _ ((db.events.map g).find? _) = _
  rw [find_map_pres (fun e : Event => decide (e.ID = id)) g (by intro x; simp [hg])]
  cases db.events.find? (fun e => e.ID = id) <;> rfl

theorem total_cancelledDB (db : DB) (now : Time) (b : Booking) (id : Int)
    (h : db.bookingsWF) (hb : b ∈ db.bookings) (hst : b.Status = .PENDING) :
    total (cancelledDB db now b) id = total db id := by
  have hheld : heldTickets (cancelledDB db now b) id = heldTickets db id - held id b := by
    unfold heldTickets cancelledDB
    simp only
    rw [sum_map_update (held id) (applyStatus .CANCELLED now) b.ID db.bookings h.1 b hb rfl]
    have : held id (applyStatus .CANCELLED now b) = 0 := by
      simp [held, applyStatus]
    rw [this]; ring
  have hrem : remaining (cancelledDB db now b) id =
      (remaining db id).map (fun r => r + held id b) := by
    unfold cancelledDB
    rw [remaining_map db id _ (by intro e; by_cases he : e.ID = b.EventID <;> simp [he])]
    unfold remaining
    cases hf : db.events.find? (fun e => e.ID = id) with
    | none => rfl
    | some e =>
      have he : e.ID = id := by simpa using (find_some_mem _ _ _ hf).2
      simp only [Option.map_some', Option.some.injEq, held, hst, true_or, and_true]
      by_cases hid : b.EventID = id
      · simp [hid, he]
      · have : ¬ e.ID = b.EventID := fun hh => hid (hh.symm.trans he)
        simp [hid, this]
  unfold total
  rw [hheld, hrem]
  cases remaining db id with
  | none => rfl
  | some r => simp only [Option.map_some', Option.some.injEq]; ring

theorem total_confirmedDB (db : DB) (now : Time) (b : Booking) (id : Int)
    (h : db.bookingsWF) (hb : b ∈ db.bookings) (hst : b.Status = .PENDING) :
    total (confirmedDB db now b) id = total db id := by
  have hheld : heldTickets (confirmedDB db now b) id = heldTickets db id := by
    unfold heldTickets confirmedDB
    simp only
    rw [sum_map_update (held id) (applyStatus .CONFIRMED now) b.ID db.bookings h.1 b hb rfl]
    have : held id (applyStatus .CONFIRMED now b) = held id b := by
      simp [held, applyStatus, hst]
    rw [this]; ring
  unfold total
  rw [hheld]
  rfl

theorem total_createdDB (s : bookingService) (db : DB) (now : Time) (userID : Int)
    (req : CreateBookingRequest) (ev : Event) (id : Int)
    (hfind : db.events.find? (fun e => e.ID = req.EventID) = some ev)
    (hge : ¬ ev.TotalTickets < req.TicketCount) :
    total (createdDB s db now userID req ev) id = total db id := by
  have hheld : heldTickets (createdDB s db now userID req ev) id =
      heldTickets db id + (if req.EventID = id then req.TicketCount else 0) := by
    unfold heldTickets createdDB
    simp [held, newBooking]
  have hrem : remaining (createdDB s db now userID req ev) id =
      (remaining db id).map (fun r => r - (if req.EventID = id then req.TicketCount else 0)) := by
    unfold createdDB
    rw [remaining_map db id _ (by
      intro e; by_cases he : decrementMatches req.EventID req.TicketCount e = true <;> simp [he])]
    unfold remaining
    cases hf : db.events.find? (fun e => e.ID = id) with
    | none => rfl
    | some e =>
      have he : e.ID = id := by simpa using (find_some_mem _ _ _ hf).2
      simp only [Option.map_some', Option.some.injEq]
      by_cases hid : req.EventID = id
      · subst hid
        rw [hfind] at hf
        cases hf
        have : decrementMatches req.EventID req.TicketCount ev = true := by
          simp only [decrementMatches, he, decide_True, Bool.true_and, decide_eq_true_eq]
          omega
        simp [this]
      · have : decrementMatches req.EventID req.TicketCount e = false := by
          have hne : ¬ e.ID = req.EventID := fun hh => hid (hh.symm.trans he)
          simp [decrementMatches, hne]
        simp [this, hid]
  unfold total
  rw [hheld, hrem]
  cases remaining db id with
  | none => rfl
  | some r => simp only [Option.map_some', Option.some.injEq]; ring

theorem statusOf_update (db : DB) (evs : List Event) (n : Int) (g : Booking → Booking)
    (hg : ∀ b, (g b).ID = b.ID) (id : Int) (b : Booking)
    (hfind : db.bookings.find? (fun b => b.ID = id) = some b) :
    statusOf (DB.mk evs (db.bookings.map (fun x => if x.ID = id then g x else x)) n) id
      = some (g b).Status := by
  have hid : b.ID = id := by simpa using (find_some_mem _ _ _ hfind).2
  unfold statusOf
  show Option.map _ ((db.bookings.map _).find? _) = _
  rw [find_map_pres (fun b : Booking => decide (b.ID = id)) _ (by
    intro x; by_cases hx : x.ID = id <;> simp [hx, hg]), hfind]
  simp [hid]

theorem wrapInt64_of_range (x : Int) (h1 : -2 ^ 63 ≤ x) (h2 : x < 2 ^ 63) : wrapInt64 x = x := by
  unfold wrapInt64
  omega

theorem remaining_createdDB (s : bookingService) (db : DB) (now : Time) (userID : Int)
    (req : CreateBookingRequest) (ev : Event)
    (hfind : db.events.find? (fun e => e.ID = req.EventID) = some ev)
    (hge : ¬ ev.TotalTickets < req.TicketCount) :
    remaining (createdDB s db now userID req ev) req.EventID
      = some (ev.TotalTickets - req.TicketCount) := by
  have he : ev.ID = req.EventID := by simpa using (find_some_mem _ _ _ hfind).2
  have hm : decrementMatches req.EventID req.TicketCount ev = true := by
    simp only [decrementMatches, he, decide_True, Bool.true_and, decide_eq_true_eq]
    omega
  unfold createdDB
  rw [remaining_map db req.EventID _ (by
    intro e; by_cases he : decrementMatches req.EventID req.TicketCount e = true <;> simp [he]),
    hfind]
  simp [hm]

theorem CancelBooking_ok_inv (db : DB) (now : Time) (bookingID id : Int) (h : db.bookingsWF) :
    (bookingService.CancelBooking db now Faults.none bookingID).1.bookingsWF ∧
    total (bookingService.CancelBooking db now Faults.none bookingID).1 id = total db id := by
  rcases CancelBooking_cases db now bookingID with h1 | ⟨b, hfind, hst, h1⟩
  · rw [h1]; exact ⟨h, rfl⟩
  · rw [h1]
    exact ⟨bookingsWF_cancelledDB db now b h,
      total_cancelledDB db now b id h (find_some_mem _ _ _ hfind).1 hst⟩

theorem cancelAll_ok_inv (now : Time) (id : Int) (l : List Booking) :
    ∀ db : DB, db.bookingsWF →
      (cancelAll now (fun _ => Faults.none) db l).bookingsWF ∧
      total (cancelAll now (fun _ => Faults.none) db l) id = total db id := by
  induction l with
  | nil => intro db h; exact ⟨h, rfl⟩
  | cons b rest ih =>
    intro db h
    have h1 := CancelBooking_ok_inv db now b.ID id h
    have h2 := ih _ h1.1
    exact ⟨h2.1, h2.2.trans h1.2⟩

theorem exec_ok_inv (s : bookingService) (db : DB) (now : Time) (c : Call) (id : Int)
    (h : db.bookingsWF) :
    (exec s db (Env.ok now) c).bookingsWF ∧ total (exec s db (Env.ok now) c) id = total db id := by
  cases c with
  | createBooking userID req =>
    show (s.CreateBooking db now Faults.none userID req).1.bookingsWF ∧
      total (s.CreateBooking db now Faults.none userID req).1 id = total db id
    rcases CreateBooking_cases s db now userID req with h1 | ⟨ev, hfind, hge, h1⟩
    · rw [h1]; exact ⟨h, rfl⟩
    · rw [h1]
      exact ⟨bookingsWF_createdDB s db now userID req ev h,
        total_createdDB s db now userID req ev id hfind hge⟩
  | confirmPayment bookingID =>
    show (bookingService.ConfirmPayment db now Faults.none bookingID).1.bookingsWF ∧
      total (bookingService.ConfirmPayment db now Faults.none bookingID).1 id = total db id
    rcases ConfirmPayment_cases db now bookingID with h1 | ⟨b, hfind, hst, _, h1⟩
    · rw [h1]; exact ⟨h, rfl⟩
    · rw [h1]
      exact ⟨bookingsWF_confirmedDB db now b h,
        total_confirmedDB db now b id h (find_some_mem _ _ _ hfind).1 hst⟩
  | cancelBooking bookingID => exact CancelBooking_ok_inv db now bookingID id h
  | processExpiredBookings =>
    show (bookingService.ProcessExpiredBookings db now false (fun _ => Faults.none)).1.bookingsWF ∧
      total (bookingService.ProcessExpiredBookings db now false (fun _ => Faults.none)).1 id
        = total db id
    simp only [bookingService.ProcessExpiredBookings, bookingRepository.GetExpiredPending,
      Bool.false_eq_true, if_false]
    exact cancelAll_ok_inv now id _ db h

theorem runOk_inv (s : bookingService) (id : Int) (calls : List (Time × Call)) :
    ∀ db : DB, db.bookingsWF →
      (runOk s db calls).bookingsWF ∧ total (runOk s db calls) id = total db id := by
  induction calls with
  | nil => intro db h; exact ⟨h, rfl⟩
  | cons tc rest ih =>
    intro db h
    have h1 := exec_ok_inv s db tc.1 tc.2 id h
    have h2 := ih _ h1.1
    exact ⟨h2.1, h2.2.trans h1.2⟩

/-! ### non-negative inventory -/

theorem nonneg_decrement (db : DB) (fail : Bool) (id count : Int) (h : db.nonneg) :
    (eventRepository.DecrementTickets db fail id count).1.nonneg := by
  unfold eventRepository.DecrementTickets
  cases fail
  · have key : DB.nonneg { db with events := db.events.map (fun e =>
        if decrementMatches id count e then
          { e with TotalTickets := e.TotalTickets - count } else e) } := by
      refine ⟨?_, h.2⟩
      intro e he
      simp only [List.mem_map] at he
      obtain ⟨x, hx, rfl⟩ := he
      by_cases hm : decrementMatches id count x = true
      · simp only [hm, if_true]
        simp only [decrementMatches, Bool.and_eq_true, decide_eq_true_eq] at hm
        omega
      · simp only [hm, if_false]
        exact h.1 x hx
    simp only [Bool.false_eq_true, if_false]
    split <;> exact key
  · simpa using h

theorem nonneg_increment (db : DB) (fail : Bool) (id count : Int) (h : db.nonneg)
    (hc : 0 ≤ count) : (eventRepository.IncrementTickets db fail id count).1.nonneg := by
  unfold eventRepository.IncrementTickets
  cases fail
  · refine ⟨?_, h.2⟩
    intro e he
    simp only [Bool.false_eq_true, if_false, List.mem_map] at he
    obtain ⟨x, hx, rfl⟩ := he
    have := h.1 x hx
    by_cases hm : x.ID = id
    · simp only [hm, if_true]; omega
    · simp only [hm, if_false]; exact this
  · simpa using h

theorem nonneg_updateStatus (db : DB) (fail : Bool) (now : Time) (id : Int) (st : BookingStatus)
    (h : db.nonneg) : (bookingRepository.UpdateStatus db fail now id st).1.nonneg := by
  unfold bookingRepository.UpdateStatus
  cases fail
  · have key : DB.nonneg { db with bookings := db.bookings.map (fun b =>
        if b.ID = id then applyStatus st now b else b) } := by
      refine ⟨h.1, ?_⟩
      intro b hb
      simp only [List.mem_map] at hb
      obtain ⟨x, hx, rfl⟩ := hb
      have := h.2 x hx
      by_cases hm : x.ID = id
      · simp only [hm, if_true, applyStatus_TicketCount]; exact this
      · simp only [hm, if_false]; exact this
    simp only [Bool.false_eq_true, if_false]
    split <;> exact key
  · simpa using h

theorem nonneg_create (db : DB) (fail : Bool) (b : Booking) (h : db.nonneg)
    (hb : 0 ≤ b.TicketCount) : (bookingRepository.Create db fail b).1.nonneg := by
  unfold bookingRepository.Create
  cases fail
  · refine ⟨h.1, ?_⟩
    intro x hx
    simp only [Bool.false_eq_true, if_false, List.mem_append, List.mem_singleton] at hx
    rcases hx with hx | rfl
    · exact h.2 x hx
    · exact hb
  · simpa using h

theorem Transaction_pres {α : Type} (P : DB → Prop) (db : DB) (f : Faults) (captured : α)
    (body : DB → DB × α × Option Error) (h0 : P db) (hb : P (body db).1) :
    P (Transaction db f captured body).1 := by
  unfold Transaction
  split
  · exact h0
  · split
    · rename_i heq; rw [heq] at hb; exact hb
    · rename_i heq; rw [heq] at hb; split <;> exact hb

theorem nonneg_CancelBooking (db : DB) (now : Time) (f : Faults) (id : Int) (h : db.nonneg) :
    (bookingService.CancelBooking db now f id).1.nonneg := by
  unfold bookingService.CancelBooking bookingRepository.GetByID
  cases hg : f.getByID
  · simp only [Bool.false_eq_true, if_false]
    cases hfind : db.bookings.find? (fun b => b.ID = id) with
    | none => exact h
    | some b =>
      have hb : 0 ≤ b.TicketCount := h.2 b (find_some_mem _ _ _ hfind).1
      simp only
      split
      · exact h
      · split
        · exact h
        · apply Transaction_pres DB.nonneg _ _ _ _ h
          have h1 := nonneg_updateStatus db f.updateStatus now id BookingStatus.CANCELLED h
          generalize bookingRepository.UpdateStatus db f.updateStatus now id
            BookingStatus.CANCELLED = r1 at h1 ⊢
          obtain ⟨d1, e1⟩ := r1
          cases e1 with
          | some e => exact h1
          | none =>
            have h2 := nonneg_increment d1 f.incrementTickets b.EventID b.TicketCount h1 hb
            dsimp only
            generalize eventRepository.IncrementTickets d1 f.incrementTickets b.EventID
              b.TicketCount = r2 at h2 ⊢
            obtain ⟨d2, e2⟩ := r2
            cases e2 <;> exact h2
  · exact h

theorem nonneg_ConfirmPayment (db : DB) (now : Time) (f : Faults) (id : Int) (h : db.nonneg) :
    (bookingService.ConfirmPayment db now f id).1.nonneg := by
  unfold bookingService.ConfirmPayment
  split
  · exact h
  · split
    · exact h
    · split
      · exact h
      · have h1 := nonneg_updateStatus db f.updateStatus now id BookingStatus.CONFIRMED h
        generalize bookingRepository.UpdateStatus db f.updateStatus now id
          BookingStatus.CONFIRMED = r1 at h1 ⊢
        obtain ⟨d1, e1⟩ := r1
        cases e1 <;> exact h1

theorem nonneg_CreateBooking (s : bookingService) (db : DB) (now : Time) (f : Faults)
    (userID : Int) (req : CreateBookingRequest) (h : db.nonneg) (hreq : 0 ≤ req.TicketCount) :
    (s.CreateBooking db now f userID req).1.nonneg := by
  unfold bookingService.CreateBooking
  apply Transaction_pres DB.nonneg _ _ _ _ h
  dsimp only
  split
  · exact h
  · split
    · exact h
    · have h1 := nonneg_decrement db f.decrementTickets req.EventID req.TicketCount h
      generalize eventRepository.DecrementTickets db f.decrementTickets req.EventID
        req.TicketCount = r1 at h1 ⊢
      obtain ⟨d1, e1⟩ := r1
      cases e1 with
      | some e => exact h1
      | none =>
        dsimp only
        rename_i event _ _
        have h2 := nonneg_create d1 f.create
          { ID := 0, UserID := userID, EventID := req.EventID, TicketCount := req.TicketCount,
            TotalPrice := Float64.mul (Float64.ofInt req.TicketCount) event.TicketPrice,
            Status := BookingStatus.PENDING, ExpiresAt := now + s.timeout,
            ConfirmedAt := none, CancelledAt := none } h1 hreq
        generalize bookingRepository.Create d1 f.create _ = r2 at h2 ⊢
        obtain ⟨d2, b2, e2⟩ := r2
        cases e2 <;> exact h2

theorem nonneg_cancelAll (now : Time) (faults : Int → Faults) (l : List Booking) :
    ∀ db : DB, db.nonneg → (cancelAll now faults db l).nonneg := by
  induction l with
  | nil => intro db h; exact h
  | cons b rest ih => intro db h; exact ih _ (nonneg_CancelBooking db now (faults b.ID) b.ID h)

theorem nonneg_ProcessExpiredBookings (db : DB) (now : Time) (failList : Bool)
    (faults : Int → Faults) (h : db.nonneg) :
    (bookingService.ProcessExpiredBookings db now failList faults).1.nonneg := by
  unfold bookingService.ProcessExpiredBookings
  split
  · exact h
  · exact nonneg_cancelAll now faults _ db h

/-- As long as no request asks for a negative number of tickets, no remaining
count becomes negative, whatever store calls fail. -/
theorem nonneg_run (s : bookingService) (calls : List (Env × Call)) :
    ∀ db : DB, db.nonneg → (∀ ec ∈ calls, ec.2.countNonneg) → (run s db calls).nonneg := by
  induction calls with
  | nil => intro db h _; exact h
  | cons ec rest ih =>
    intro db h hreq
    obtain ⟨env, c⟩ := ec
    apply ih _ _ (fun x hx => hreq x (List.mem_cons_of_mem _ hx))
    have hc : c.countNonneg := hreq (env, c) (List.mem_cons_self _ _)
    cases c with
    | createBooking userID req => exact nonneg_CreateBooking s db env.now env.faults userID req h hc
    | confirmPayment id => exact nonneg_ConfirmPayment db env.now env.faults id h
    | cancelBooking id => exact nonneg_CancelBooking db env.now env.faults id h
    | processExpiredBookings =>
      exact nonneg_ProcessExpiredBookings db env.now env.failList env.sweepFaults h

/-! ### single calls, frames and the reclaim sweep -/

theorem find_update (l : List Booking) (g : Booking → Booking) (hg : ∀ b, (g b).ID = b.ID)
    (id id2 : Int) :
    (l.map (fun x => if x.ID = id then g x else x)).find? (fun b => b.ID = id2)
      = (l.find? (fun b => b.ID = id2)).map (fun x => if x.ID = id then g x else x) :=
  find_map_pres (fun b : Booking => decide (b.ID = id2)) _ (by
    intro x; by_cases hx : x.ID = id <;> simp [hx, hg]) l

theorem find_update_ne (l : List Booking) (g : Booking → Booking) (hg : ∀ b, (g b).ID = b.ID)
    (id id2 : Int) (hne : id2 ≠ id) :
    (l.map (fun x => if x.ID = id then g x else x)).find? (fun b => b.ID = id2)
      = l.find? (fun b => b.ID = id2) := by
  rw [find_update l g hg]
  cases hf : l.find? (fun b => b.ID = id2) with
  | none => rfl
  | some x =>
    have hx : x.ID = id2 := by simpa using (find_some_mem _ _ _ hf).2
    have : ¬ x.ID = id := fun h => hne (hx.symm.trans h)
    simp [this]

theorem find_update_eq (l : List Booking) (g : Booking → Booking) (hg : ∀ b, (g b).ID = b.ID)
    (id : Int) (b : Booking) (hfind : l.find? (fun b => b.ID = id) = some b) :
    (l.map (fun x => if x.ID = id then g x else x)).find? (fun b => b.ID = id) = some (g b) := by
  have hid : b.ID = id := by simpa using (find_some_mem _ _ _ hfind).2
  rw [find_update l g hg, hfind]
  simp [hid]

theorem remaining_cancelledDB (db : DB) (now : Time) (b : Booking) (id : Int) :
    remaining (cancelledDB db now b) id
      = (remaining db id).map (fun r => if id = b.EventID then r + b.TicketCount else r) := by
  unfold cancelledDB
  rw [remaining_map db id _ (by intro e; by_cases he : e.ID = b.EventID <;> simp [he])]
  unfold remaining
  cases hf : db.events.find? (fun e => e.ID = id) with
  | none => rfl
  | some e =>
    have he : e.ID = id := by simpa using (find_some_mem _ _ _ hf).2
    simp only [Option.map_some', Option.some.injEq, he]
    by_cases hid : id = b.EventID <;> simp [hid]

theorem map_update_of_find_none (l : List Booking) (g : Booking → Booking) (id : Int)
    (hfind : l.find? (fun b => b.ID = id) = none) :
    l.map (fun x => if x.ID = id then g x else x) = l := by
  conv_rhs => rw [← List.map_id l]
  apply List.map_congr_left
  intro x hx
  have : ¬ x.ID = id := by
    have := List.find?_eq_none.1 hfind x hx
    simpa using this
  simp [this]

theorem filter_length_zero_of_find_none (l : List Booking) (id : Int)
    (hfind : l.find? (fun b => b.ID = id) = none) :
    (l.filter (fun b => b.ID = id)).length = 0 := by
  rw [List.length_eq_zero, List.filter_eq_nil_iff]
  intro x hx
  exact List.find?_eq_none.1 hfind x hx

theorem rowsFrame_refl (l : List Booking) : rowsFrame l l :=
  fun _ _ h => Or.inl h

theorem rowsFrame_trans (l1 l2 l3 : List Booking) (h12 : rowsFrame l1 l2)
    (h23 : rowsFrame l2 l3) : rowsFrame l1 l3 := by
  intro id b hb
  rcases h12 id b hb with h | ⟨hp, st, t, hst, h⟩
  · exact h23 id b h
  · rcases h23 id _ h with h2 | ⟨hp2, _⟩
    · exact Or.inr ⟨hp, st, t, hst, h2⟩
    · rw [applyStatus_Status] at hp2
      rcases hst with rfl | rfl <;> cases hp2

theorem rowsFrame_append (l extra : List Booking) : rowsFrame l (l ++ extra) := by
  intro id b hb
  left
  rw [List.find?_append, hb]
  rfl

theorem rowsFrame_update (l : List Booking) (now : Time) (id : Int) (st : BookingStatus)
    (b0 : Booking) (hfind : l.find? (fun b => b.ID = id) = some b0)
    (hp : b0.Status = BookingStatus.PENDING)
    (hst : st = BookingStatus.CONFIRMED ∨ st = BookingStatus.CANCELLED) :
    rowsFrame l (l.map (fun x => if x.ID = id then applyStatus st now x else x)) := by
  intro id2 b hb
  by_cases hne : id2 = id
  · subst hne
    rw [hfind] at hb
    cases hb
    exact Or.inr ⟨hp, st, now, hst, find_update_eq l _ (applyStatus_ID _ _) id2 b0 hfind⟩
  · left
    rw [find_update_ne l _ (applyStatus_ID _ _) id id2 hne]
    exact hb

theorem UpdateStatus_bookings (db : DB) (fail : Bool) (now : Time) (id : Int)
    (st : BookingStatus) :
    (bookingRepository.UpdateStatus db fail now id st).1.bookings
      = if fail then db.bookings
        else db.bookings.map (fun x => if x.ID = id then applyStatus st now x else x) := by
  unfold bookingRepository.UpdateStatus
  cases fail
  · simp only [Bool.false_eq_true, if_false]
    split <;> rfl
  · rfl

theorem IncrementTickets_bookings (db : DB) (fail : Bool) (id count : Int) :
    (eventRepository.IncrementTickets db fail id count).1.bookings = db.bookings := by
  unfold eventRepository.IncrementTickets
  cases fail <;> rfl

theorem DecrementTickets_bookings (db : DB) (fail : Bool) (id count : Int) :
    (eventRepository.DecrementTickets db fail id count).1.bookings = db.bookings := by
  unfold eventRepository.DecrementTickets
  cases fail
  · simp only [Bool.false_eq_true, if_false]
    split <;> rfl
  · rfl

theorem Create_bookings (db : DB) (fail : Bool) (b : Booking) :
    ∃ extra, (bookingRepository.Create db fail b).1.bookings = db.bookings ++ extra := by
  unfold bookingRepository.Create
  cases fail
  · exact ⟨_, rfl⟩
  · exact ⟨[], by simp⟩

/-- Whatever store calls fail, CancelBooking leaves the bookings as they were
or rewrites the rows of the id to CANCELLED, and it does the latter only when
the stored booking was PENDING. -/
theorem CancelBooking_bookings (db : DB) (now : Time) (f : Faults) (id : Int) :
    (bookingService.CancelBooking db now f id).1.bookings = db.bookings ∨
    ((∃ b, db.bookings.find? (fun b => b.ID = id) = some b ∧
        b.Status = BookingStatus.PENDING) ∧
      (bookingService.CancelBooking db now f id).1.bookings
        = db.bookings.map (fun x =>
            if x.ID = id then applyStatus BookingStatus.CANCELLED now x else x)) := by
  unfold bookingService.CancelBooking bookingRepository.GetByID
  cases hg : f.getByID
  · simp only [Bool.false_eq_true, if_false]
    cases hfind : db.bookings.find? (fun b => b.ID = id) with
    | none => exact Or.inl rfl
    | some b =>
      simp only
      split
      · exact Or.inl rfl
      · split
        · exact Or.inl rfl
        · have hp : b.Status = BookingStatus.PENDING := by
            cases hs : b.Status <;> simp_all
          refine Or.imp (fun h => h) (fun hb => ⟨⟨b, rfl, hp⟩, hb⟩) ?_
          apply Transaction_pres (fun d => d.bookings = db.bookings ∨
              d.bookings = db.bookings.map (fun x =>
                if x.ID = id then applyStatus BookingStatus.CANCELLED now x else x))
            _ _ _ _ (Or.inl rfl)
          have h1 := UpdateStatus_bookings db f.updateStatus now id BookingStatus.CANCELLED
          generalize bookingRepository.UpdateStatus db f.updateStatus now id
            BookingStatus.CANCELLED = r1 at h1 ⊢
          obtain ⟨d1, e1⟩ := r1
          have key : d1.bookings = db.bookings ∨
              d1.bookings = db.bookings.map (fun x =>
                if x.ID = id then applyStatus BookingStatus.CANCELLED now x else x) := by
            cases hu : f.updateStatus
            · right
              simpa [hu] using h1
            · left
              simpa [hu] using h1
          cases e1 with
          | some e => exact key
          | none =>
            dsimp only
            have h2 := IncrementTickets_bookings d1 f.incrementTickets b.EventID b.TicketCount
            generalize eventRepository.IncrementTickets d1 f.incrementTickets b.EventID
              b.TicketCount = r2 at h2 ⊢
            obtain ⟨d2, e2⟩ := r2
            have : d2.bookings = d1.bookings := h2
            cases e2 <;> (dsimp only; rw [this]; exact key)
  · exact Or.inl rfl

theorem rowsFrame_CancelBooking (db : DB) (now : Time) (f : Faults) (id : Int) :
    rowsFrame db.bookings (bookingService.CancelBooking db now f id).1.bookings := by
  rcases CancelBooking_bookings db now f id with h | ⟨⟨b, hfind, hp⟩, h⟩
  · rw [h]; exact rowsFrame_refl _
  · rw [h]; exact rowsFrame_update db.bookings now id _ b hfind hp (Or.inr rfl)

theorem rowsFrame_ConfirmPayment (db : DB) (now : Time) (f : Faults) (id : Int) :
    rowsFrame db.bookings (bookingService.ConfirmPayment db now f id).1.bookings := by
  unfold bookingService.ConfirmPayment bookingRepository.GetByID
  cases hg : f.getByID
  · simp only [Bool.false_eq_true, if_false]
    cases hfind : db.bookings.find? (fun b => b.ID = id) with
    | none => exact rowsFrame_refl _
    | some b =>
      simp only
      split
      · exact rowsFrame_refl _
      · rename_i hnp
        have hp : b.Status = BookingStatus.PENDING := not_not.1 hnp
        split
        · exact rowsFrame_refl _
        · have h1 := UpdateStatus_bookings db f.updateStatus now id BookingStatus.CONFIRMED
          generalize bookingRepository.UpdateStatus db f.updateStatus now id
            BookingStatus.CONFIRMED = r1 at h1 ⊢
          obtain ⟨d1, e1⟩ := r1
          have key : rowsFrame db.bookings d1.bookings := by
            have h1b : d1.bookings = _ := h1
            rw [h1b]
            cases f.updateStatus
            · exact rowsFrame_update db.bookings now id _ b hfind hp (Or.inl rfl)
            · exact rowsFrame_refl _
          cases e1 <;> exact key
  · exact rowsFrame_refl _

theorem rowsFrame_CreateBooking (s : bookingService) (db : DB) (now : Time) (f : Faults)
    (userID : Int) (req : CreateBookingRequest) :
    rowsFrame db.bookings (s.CreateBooking db now f userID req).1.bookings := by
  unfold bookingService.CreateBooking
  apply Transaction_pres (fun d => rowsFrame db.bookings d.bookings) _ _ _ _ (rowsFrame_refl _)
  dsimp only
  split
  · exact rowsFrame_refl _
  · split
    · exact rowsFrame_refl _
    · have h1 := DecrementTickets_bookings db f.decrementTickets req.EventID req.TicketCount
      generalize eventRepository.DecrementTickets db f.decrementTickets req.EventID
        req.TicketCount = r1 at h1 ⊢
      obtain ⟨d1, e1⟩ := r1
      have h1b : d1.bookings = db.bookings := h1
      cases e1 with
      | some e => dsimp only; rw [h1b]; exact rowsFrame_refl _
      | none =>
        dsimp only
        rename_i event _ _
        obtain ⟨extra, h2⟩ := Create_bookings d1 f.create
          { ID := 0, UserID := userID, EventID := req.EventID, TicketCount := req.TicketCount,
            TotalPrice := Float64.mul (Float64.ofInt req.TicketCount) event.TicketPrice,
            Status := BookingStatus.PENDING, ExpiresAt := now + s.timeout,
            ConfirmedAt := none, CancelledAt := none }
        generalize bookingRepository.Create d1 f.create _ = r2 at h2 ⊢
        obtain ⟨d2, b2, e2⟩ := r2
        have h2b : d2.bookings = db.bookings ++ extra := by
          have : d2.bookings = d1.bookings ++ extra := h2
          rw [this, h1b]
        cases e2 <;> (dsimp only; rw [h2b]; exact rowsFrame_append _ _)

theorem rowsFrame_cancelAll (now : Time) (faults : Int → Faults) (l : List Booking) :
    ∀ db : DB, rowsFrame db.bookings (cancelAll now faults db l).bookings := by
  induction l with
  | nil => intro db; exact rowsFrame_refl _
  | cons b rest ih =>
    intro db
    exact rowsFrame_trans _ _ _ (rowsFrame_CancelBooking db now (faults b.ID) b.ID) (ih _)

theorem rowsFrame_exec (s : bookingService) (db : DB) (env : Env) (c : Call) :
    rowsFrame db.bookings (exec s db env c).bookings := by
  cases c with
  | createBooking userID req => exact rowsFrame_CreateBooking s db env.now env.faults userID req
  | confirmPayment id => exact rowsFrame_ConfirmPayment db env.now env.faults id
  | cancelBooking id => exact rowsFrame_CancelBooking db env.now env.faults id
  | processExpiredBookings =>
    show rowsFrame db.bookings
      (bookingService.ProcessExpiredBookings db env.now env.failList env.sweepFaults).1.bookings
    unfold bookingService.ProcessExpiredBookings
    split
    · exact rowsFrame_refl _
    · exact rowsFrame_cancelAll env.now env.sweepFaults _ db

theorem rowsFrame_run (s : bookingService) (calls : List (Env × Call)) :
    ∀ db : DB, rowsFrame db.bookings (run s db calls).bookings := by
  induction calls with
  | nil => intro db; exact rowsFrame_refl _
  | cons ec rest ih =>
    intro db
    exact rowsFrame_trans _ _ _ (rowsFrame_exec s db ec.1 ec.2) (ih _)

theorem cancelAllTrace_fst (now : Time) (faults : Int → Faults) (l : List Booking) :
    ∀ db : DB, (cancelAllTrace now faults db l).1 = cancelAll now faults db l := by
  induction l with
  | nil => intro db; rfl
  | cons b rest ih => intro db; exact ih _

theorem cancelAllTrace_ids (now : Time) (faults : Int → Faults) (l : List Booking) :
    ∀ db : DB, (cancelAllTrace now faults db l).2.map Prod.fst = l.map (fun b => b.ID) := by
  induction l with
  | nil => intro db; rfl
  | cons b rest ih =>
    intro db
    show b.ID :: List.map Prod.fst (cancelAllTrace now faults _ rest).2 = _
    rw [ih]
    rfl

/-- A CancelBooking that returns nil has found a PENDING booking and has
rewritten the rows of its id to CANCELLED. -/
theorem CancelBooking_nil (db : DB) (now : Time) (f : Faults) (id : Int)
    (h : (bookingService.CancelBooking db now f id).2 = none) :
    statusOf (bookingService.CancelBooking db now f id).1 id = some BookingStatus.CANCELLED := by
  rcases CancelBooking_bookings db now f id with hb | ⟨⟨b, hfind, _⟩, hb⟩
  · exfalso
    revert h hb
    unfold bookingService.CancelBooking bookingRepository.GetByID
    cases hg : f.getByID
    · simp only [Bool.false_eq_true, if_false]
      cases hfind : db.bookings.find? (fun b => b.ID = id) with
      | none => intro h; cases h
      | some b =>
        simp only
        split
        · intro h; cases h
        · split
          · intro h; cases h
          · rename_i h1 h2
            have hp : b.Status = BookingStatus.PENDING := by
              cases hs : b.Status <;> simp_all
            unfold Transaction
            cases hb : f.txBegin
            · simp only [Bool.false_eq_true, if_false]
              cases hu : f.updateStatus
              · rw [UpdateStatus_found db now id BookingStatus.CANCELLED b hfind]
                simp only
                unfold eventRepository.IncrementTickets
                cases hi : f.incrementTickets
                · simp only [Bool.false_eq_true, if_false]
                  cases hc : f.txCommit
                  · simp only [Bool.false_eq_true, if_false]
                    intro _ hbk
                    have h3 := congrArg (fun l : List Booking =>
                      (l.find? (fun b => b.ID = id)).map (fun b => b.Status)) hbk
                    simp only at h3
                    rw [find_update_eq db.bookings _ (applyStatus_ID _ _) id b hfind, hfind] at h3
                    simp [applyStatus_Status, hp] at h3
                  · simp
                · simp
              · simp [bookingRepository.UpdateStatus]
            · simp
    · intro h; cases h
  · unfold statusOf
    rw [hb, find_update_eq db.bookings _ (applyStatus_ID _ _) id b hfind]
    simp [applyStatus_Status]

theorem statusOf_terminal_of_frame (l1 l2 : List Booking) (evs1 evs2 : List Event) (n1 n2 : Int)
    (hfr : rowsFrame l1 l2) (id : Int)
    (h : statusOf (DB.mk evs1 l1 n1) id = some BookingStatus.CANCELLED) :
    statusOf (DB.mk evs2 l2 n2) id = some BookingStatus.CANCELLED := by
  unfold statusOf at h ⊢
  simp only at h ⊢
  cases hf : l1.find? (fun b => b.ID = id) with
  | none => rw [hf] at h; cases h
  | some b =>
    rw [hf] at h
    have hs : b.Status = BookingStatus.CANCELLED := by simpa using h
    rcases hfr id b hf with h2 | ⟨hp, _⟩
    · rw [h2]; simp [hs]
    · rw [hs] at hp; cases hp

theorem cancelAllTrace_nil_cancelled (now : Time) (faults : Int → Faults) (l : List Booking) :
    ∀ (db : DB) (id : Int), (id, none) ∈ (cancelAllTrace now faults db l).2 →
      statusOf (cancelAllTrace now faults db l).1 id = some BookingStatus.CANCELLED := by
  induction l with
  | nil => intro db id h; cases h
  | cons b rest ih =>
    intro db id h
    have h2 : (id, (none : Option Error)) ∈
        (b.ID, (bookingService.CancelBooking db now (faults b.ID) b.ID).2) ::
          (cancelAllTrace now faults
            (bookingService.CancelBooking db now (faults b.ID) b.ID).1 rest).2 := h
    rcases List.mem_cons.1 h2 with heq | hmem
    · have hid : id = b.ID := congrArg Prod.fst heq
      have herr : (bookingService.CancelBooking db now (faults b.ID) b.ID).2 = none :=
        (congrArg Prod.snd heq).symm
      subst hid
      have h3 := CancelBooking_nil db now (faults b.ID) b.ID herr
      show statusOf (cancelAllTrace now faults _ rest).1 b.ID = _
      rw [cancelAllTrace_fst]
      exact statusOf_terminal_of_frame _ _ _ _ _ _
        (rowsFrame_cancelAll now faults rest _) b.ID h3
    · exact ih _ id hmem

theorem find_of_nodup (l : List Booking) (hnd : (l.map (fun b => b.ID)).Nodup) (b : Booking)
    (hb : b ∈ l) : l.find? (fun x => x.ID = b.ID) = some b := by
  induction l with
  | nil => cases hb
  | cons a t ih =>
    simp only [List.map_cons, List.nodup_cons, List.mem_map, not_exists, not_and] at hnd
    rcases List.mem_cons.1 hb with rfl | hbt
    · simp [List.find?_cons]
    · have hne : ¬ a.ID = b.ID := fun h => hnd.1 b hbt h.symm
      simp only [List.find?_cons, hne, decide_False]
      exact ih hnd.2 hbt

theorem CancelBooking_find_ne (db : DB) (now : Time) (f : Faults) (id id2 : Int)
    (hne : id2 ≠ id) :
    (bookingService.CancelBooking db now f id).1.bookings.find? (fun b => b.ID = id2)
      = db.bookings.find? (fun b => b.ID = id2) := by
  rcases CancelBooking_bookings db now f id with h | ⟨_, h⟩
  · rw [h]
  · rw [h]; exact find_update_ne db.bookings _ (applyStatus_ID _ _) id id2 hne

theorem cancelAllTrace_no_fault (now : Time) (faults : Int → Faults) (l : List Booking) :
    ∀ db : DB, (l.map (fun b => b.ID)).Nodup →
      (∀ b ∈ l, ∃ b0, db.bookings.find? (fun x => x.ID = b.ID) = some b0 ∧
        b0.Status = BookingStatus.PENDING) →
      ∀ b ∈ l, faults b.ID = Faults.none →
        (b.ID, none) ∈ (cancelAllTrace now faults db l).2 := by
  induction l with
  | nil => intro db _ _ b hb; cases hb
  | cons a rest ih =>
    intro db hnd hpend b hb hf
    simp only [List.map_cons, List.nodup_cons, List.mem_map, not_exists, not_and] at hnd
    show (b.ID, none) ∈ (a.ID, (bookingService.CancelBooking db now (faults a.ID) a.ID).2) ::
      (cancelAllTrace now faults
        (bookingService.CancelBooking db now (faults a.ID) a.ID).1 rest).2
    rcases List.mem_cons.1 hb with rfl | hbt
    · obtain ⟨b0, hfind, hp⟩ := hpend b (List.mem_cons_self _ _)
      rw [hf, CancelBooking_pending db now b.ID b0 hfind hp]
      exact List.mem_cons_self _ _
    · apply List.mem_cons_of_mem
      apply ih _ hnd.2 _ b hbt hf
      intro x hx
      obtain ⟨x0, hfind, hp⟩ := hpend x (List.mem_cons_of_mem _ hx)
      refine ⟨x0, ?_, hp⟩
      rw [CancelBooking_find_ne db now (faults a.ID) a.ID x.ID (fun h => hnd.1 x hx h)]
      exact hfind

theorem expired_nodup (db : DB) (now : Time)
    (hwf : (db.bookings.map (fun b => b.ID)).Nodup) :
    ((((db.bookings.filter (fun b => b.Status = BookingStatus.PENDING && b.ExpiresAt < now))
      ).insertionSort (fun a b => a.ExpiresAt ≤ b.ExpiresAt)).map (fun b => b.ID)).Nodup := by
  have hs : ((db.bookings.filter
      (fun b => b.Status = BookingStatus.PENDING && b.ExpiresAt < now)).map
        (fun b => b.ID)).Nodup :=
    hwf.sublist ((List.filter_sublist _).map _)
  exact ((List.perm_insertionSort _ _).map _).nodup_iff.2 hs

theorem expired_mem (db : DB) (now : Time) (b : Booking)
    (hb : b ∈ (db.bookings.filter
      (fun b => b.Status = BookingStatus.PENDING && b.ExpiresAt < now)).insertionSort
        (fun a b => a.ExpiresAt ≤ b.ExpiresAt)) :
    b ∈ db.bookings ∧ b.Status = BookingStatus.PENDING ∧ b.ExpiresAt < now := by
  rw [List.mem_insertionSort, List.mem_filter] at hb
  exact ⟨hb.1, by simpa using hb.2⟩

theorem ticketsFor_cons (b : Booking) (l : List Booking) (eventID : Int) :
    ticketsFor (b :: l) eventID
      = (if b.EventID = eventID then b.TicketCount else 0) + ticketsFor l eventID := by
  unfold ticketsFor
  by_cases h : b.EventID = eventID <;> simp [List.filter_cons, h]

/-- The sweep over a list of stored PENDING bookings with distinct ids, no
store call failing: every listed booking is rewritten to CANCELLED and every
event gets back the tickets of its listed bookings. -/
theorem cancelAll_ok_eq (now : Time) (l : List Booking) :
    ∀ db : DB, (l.map (fun b => b.ID)).Nodup →
      (∀ b ∈ l, db.bookings.find? (fun x => x.ID = b.ID) = some b ∧
        b.Status = BookingStatus.PENDING) →
      cancelAll now (fun _ => Faults.none) db l =
        DB.mk
          (db.events.map (fun e =>
            { e with TotalTickets := e.TotalTickets + ticketsFor l e.ID }))
          (db.bookings.map (fun x =>
            if x.ID ∈ l.map (fun b => b.ID) then applyStatus BookingStatus.CANCELLED now x
            else x))
          db.nextBookingID := by
  induction l with
  | nil =>
    intro db _ _
    show db = _
    have h1 : db.events.map (fun e =>
        ({ e with TotalTickets := e.TotalTickets + ticketsFor [] e.ID } : Event)) = db.events := by
      conv_rhs => rw [← List.map_id db.events]
      apply List.map_congr_left
      intro e _
      simp [ticketsFor]
    have h2 : db.bookings.map (fun x =>
        if x.ID ∈ ([] : List Booking).map (fun b => b.ID)
          then applyStatus BookingStatus.CANCELLED now x else x) = db.bookings := by
      conv_rhs => rw [← List.map_id db.bookings]
      apply List.map_congr_left
      intro x _
      simp
    rw [h1, h2]
  | cons b rest ih =>
    intro db hnd hpend
    simp only [List.map_cons, List.nodup_cons, List.mem_map, not_exists, not_and] at hnd
    obtain ⟨hfind, hp⟩ := hpend b (List.mem_cons_self _ _)
    show cancelAll now (fun _ => Faults.none)
      (bookingService.CancelBooking db now Faults.none b.ID).1 rest = _
    rw [CancelBooking_pending db now b.ID b hfind hp]
    have hrest : ∀ x ∈ rest,
        (cancelledDB db now b).bookings.find? (fun y => y.ID = x.ID) = some x ∧
          x.Status = BookingStatus.PENDING := by
      intro x hx
      obtain ⟨hfx, hpx⟩ := hpend x (List.mem_cons_of_mem _ hx)
      refine ⟨?_, hpx⟩
      show (db.bookings.map _).find? _ = _
      rw [find_update_ne db.bookings _ (applyStatus_ID _ _) b.ID x.ID (fun h => hnd.1 x hx h)]
      exact hfx
    rw [ih (cancelledDB db now b) hnd.2 hrest]
    unfold cancelledDB
    simp only [List.map_map]
    congr 1
    · apply List.map_congr_left
      intro e _
      simp only [Function.comp]
      rw [ticketsFor_cons]
      by_cases he : e.ID = b.EventID
      · have he2 : b.EventID = e.ID := he.symm
        simp only [if_pos he, if_pos he2]
        congr 1
        ring
      · have he2 : ¬ b.EventID = e.ID := fun h => he h.symm
        simp only [if_neg he, if_neg he2]
        congr 1
        ring
    · apply List.map_congr_left
      intro x _
      simp only [Function.comp, List.map_cons, List.mem_cons]
      by_cases hx : x.ID = b.ID
      · have hnot : ¬ b.ID ∈ rest.map (fun b => b.ID) := by
          intro hm
          obtain ⟨y, hy, hyid⟩ := List.mem_map.1 hm
          exact hnd.1 y hy hyid
        simp only [hx, if_true, true_or, applyStatus_ID, hnot, if_false]
      · simp only [hx, if_false, false_or]

theorem ticketsFor_expired (db : DB) (now : Time) (eventID : Int) :
    ticketsFor ((db.bookings.filter
      (fun b => b.Status = BookingStatus.PENDING && b.ExpiresAt < now)).insertionSort
        (fun a b => a.ExpiresAt ≤ b.ExpiresAt)) eventID = reclaimedTickets db now eventID := by
  unfold ticketsFor reclaimedTickets
  have hp := ((List.perm_insertionSort (fun a b : Booking => a.ExpiresAt ≤ b.ExpiresAt)
    (db.bookings.filter (fun b => b.Status = BookingStatus.PENDING && b.ExpiresAt < now))).filter
      (fun b => b.EventID = eventID)).map (fun b => b.TicketCount)
  rw [hp.sum_eq, List.filter_filter]
  congr 2
  apply List.filter_congr
  intro x _
  simp only [reclaimable]
  exact Bool.and_comm _ _

theorem mem_expired_ids (db : DB) (now : Time)
    (hwf : (db.bookings.map (fun b => b.ID)).Nodup) (x : Booking) (hx : x ∈ db.bookings) :
    x.ID ∈ ((db.bookings.filter
      (fun b => b.Status = BookingStatus.PENDING && b.ExpiresAt < now)).insertionSort
        (fun a b => a.ExpiresAt ≤ b.ExpiresAt)).map (fun b => b.ID) ↔
      reclaimable now x = true := by
  constructor
  · intro h
    obtain ⟨y, hy, hyid⟩ := List.mem_map.1 h
    have hm := expired_mem db now y hy
    have h1 := find_of_nodup db.bookings hwf y hm.1
    have h2 := find_of_nodup db.bookings hwf x hx
    rw [hyid, h2] at h1
    cases h1
    simp [reclaimable, hm.2.1, hm.2.2]
  · intro h
    apply List.mem_map.2
    refine ⟨x, ?_, rfl⟩
    rw [List.mem_insertionSort, List.mem_filter]
    exact ⟨hx, h⟩

/-! ### fixed fields and the inventory store -/

theorem fixedFields_refl (b : Booking) : fixedFields b b :=
  ⟨rfl, rfl, rfl, rfl, rfl, rfl⟩

theorem fixedFields_applyStatus (st : BookingStatus) (now : Time) (b : Booking) :
    fixedFields b (applyStatus st now b) := by
  cases st <;> exact ⟨rfl, rfl, rfl, rfl, rfl, rfl⟩

theorem applyStatus_ConfirmedAt (st : BookingStatus) (now : Time) (b : Booking)
    (h : (applyStatus st now b).ConfirmedAt ≠ b.ConfirmedAt) : st = BookingStatus.CONFIRMED := by
  cases st
  · exact absurd rfl h
  · rfl
  · exact absurd rfl h

theorem applyStatus_CancelledAt (st : BookingStatus) (now : Time) (b : Booking)
    (h : (applyStatus st now b).CancelledAt ≠ b.CancelledAt) : st = BookingStatus.CANCELLED := by
  cases st
  · exact absurd rfl h
  · exact absurd rfl h
  · rfl

theorem UpdateStatus_events (db : DB) (fail : Bool) (now : Time) (id : Int)
    (st : BookingStatus) :
    (bookingRepository.UpdateStatus db fail now id st).1.events = db.events ∧
    (bookingRepository.UpdateStatus db fail now id st).1.nextBookingID = db.nextBookingID := by
  unfold bookingRepository.UpdateStatus
  cases fail
  · simp only [Bool.false_eq_true, if_false]
    split <;> exact ⟨rfl, rfl⟩
  · exact ⟨rfl, rfl⟩

theorem events_map_of_find_none (l : List Event) (g : Event → Event) (p : Event → Bool)
    (id : Int) (hp : ∀ e, p e = true → e.ID = id)
    (hfind : l.find? (fun e => e.ID = id) = none) :
    l.map (fun e => if p e then g e else e) = l ∧ (l.filter p).length = 0 := by
  have hno : ∀ e ∈ l, p e = false := by
    intro e he
    have h1 := List.find?_eq_none.1 hfind e he
    cases hpe : p e
    · rfl
    · exact absurd (by simpa using hp e hpe) h1
  refine ⟨?_, ?_⟩
  · conv_rhs => rw [← List.map_id l]
    apply List.map_congr_left
    intro e he
    simp [hno e he]
  · rw [List.length_eq_zero, List.filter_eq_nil_iff]
    intro e he
    simp [hno e he]

theorem remaining_increment (db : DB) (id count : Int) (ev : Event)
    (hfind : db.events.find? (fun e => e.ID = id) = some ev) :
    remaining (eventRepository.IncrementTickets db false id count).1 id
      = some (ev.TotalTickets + count) := by
  have he : ev.ID = id := by simpa using (find_some_mem _ _ _ hfind).2
  unfold eventRepository.IncrementTickets
  simp only [Bool.false_eq_true, if_false]
  rw [remaining_map db id _ (by intro e; by_cases h : e.ID = id <;> simp [h]), hfind]
  simp [he]

theorem remaining_decrement (db : DB) (id count : Int) (ev : Event)
    (hfind : db.events.find? (fun e => e.ID = id) = some ev)
    (hge : ¬ ev.TotalTickets < count) :
    remaining (eventRepository.DecrementTickets db false id count).1 id
      = some (ev.TotalTickets - count) := by
  have he : ev.ID = id := by simpa using (find_some_mem _ _ _ hfind).2
  have hm : decrementMatches id count ev = true := by
    simp only [decrementMatches, he, decide_True, Bool.true_and, decide_eq_true_eq]
    omega
  rw [DecrementTickets_found db id count ev hfind hge]
  show remaining (DB.mk (db.events.map _) db.bookings db.nextBookingID) id = _
  rw [remaining_map db id _ (by
    intro e; by_cases h : decrementMatches id count e = true <;> simp [h]), hfind]
  simp [hm]

/-! ### interleavings of CreateBooking calls -/

theorem step_done (s : bookingService) (db : DB) (t : InFlight) (b : Option Booking)
    (e : Option Error) (h : t.pc = Pc.done b e) : t.step s db = (db, t) := by
  unfold InFlight.step
  rw [h]

/-- Three store calls of one call in a row are `CreateBooking`. -/
theorem steps_eq_CreateBooking (s : bookingService) (db : DB) (t : InFlight)
    (h : t.pc = Pc.start) :
    ((((t.step s db).2.step s (t.step s db).1).2.step s
        ((t.step s db).2.step s (t.step s db).1).1).1,
     (((t.step s db).2.step s (t.step s db).1).2.step s
        ((t.step s db).2.step s (t.step s db).1).1).2.pc)
      = ((s.CreateBooking db t.now t.faults t.userID t.req).1,
         Pc.done (s.CreateBooking db t.now t.faults t.userID t.req).2.1
           (s.CreateBooking db t.now t.faults t.userID t.req).2.2) := by
  obtain ⟨u, r, n, f, pc⟩ := t
  simp only at h
  subst h
  cases hb : f.txBegin
  · cases hl : eventRepository.LockForUpdate db f.lockForUpdate r.EventID with
    | error e =>
      have h1 : InFlight.step s db ⟨u, r, n, f, Pc.start⟩
          = (db, ⟨u, r, n, f, Pc.done none (some Error.eventNotFound)⟩) := by
        simp [InFlight.step, hb, hl]
      rw [h1]
      simp [InFlight.step, bookingService.CreateBooking, Transaction, hb, hl]
    | ok event =>
      by_cases hlt : event.TotalTickets < r.TicketCount
      · have h1 : InFlight.step s db ⟨u, r, n, f, Pc.start⟩
            = (db, ⟨u, r, n, f,
                Pc.done none (some (Error.notEnoughTicketsOnly event.TotalTickets))⟩) := by
          simp [InFlight.step, hb, hl, hlt]
        rw [h1]
        simp [InFlight.step, bookingService.CreateBooking, Transaction, hb, hl, hlt]
      · have h1 : InFlight.step s db ⟨u, r, n, f, Pc.start⟩
            = (db, ⟨u, r, n, f, Pc.locked event⟩) := by
          simp [InFlight.step, hb, hl, hlt]
        rw [h1]
        rcases hd : eventRepository.DecrementTickets db f.decrementTickets r.EventID
          r.TicketCount with ⟨d1, e1⟩
        cases e1 with
        | some e =>
          have h2 : InFlight.step s db ⟨u, r, n, f, Pc.locked event⟩
              = (d1, ⟨u, r, n, f, Pc.done none (some e)⟩) := by
            simp [InFlight.step, hd]
          simp only [h2]
          simp [InFlight.step, bookingService.CreateBooking, Transaction, hb, hl, hlt, hd]
        | none =>
          have h2 : InFlight.step s db ⟨u, r, n, f, Pc.locked event⟩
              = (d1, ⟨u, r, n, f, Pc.decremented event⟩) := by
            simp [InFlight.step, hd]
          simp only [h2]
          rcases hc : bookingRepository.Create d1 f.create
            { ID := 0, UserID := u, EventID := r.EventID, TicketCount := r.TicketCount,
              TotalPrice := Float64.mul (Float64.ofInt r.TicketCount) event.TicketPrice,
              Status := BookingStatus.PENDING, ExpiresAt := n + s.timeout,
              ConfirmedAt := none, CancelledAt := none } with ⟨d2, b2, e2⟩
          cases e2 with
          | some e =>
            simp [InFlight.step, bookingService.CreateBooking, Transaction, hb, hl, hlt, hd, hc]
          | none =>
            cases hcm : f.txCommit <;>
              simp [InFlight.step, bookingService.CreateBooking, Transaction, hb, hl, hlt, hd,
                hc, hcm]
  · have h1 : InFlight.step s db ⟨u, r, n, f, Pc.start⟩
        = (db, ⟨u, r, n, f, Pc.done none (some Error.database)⟩) := by
      simp [InFlight.step, hb]
    rw [h1]
    simp [InFlight.step, bookingService.CreateBooking, Transaction, hb]

theorem step_start (s : bookingService) (db : DB) (u : Int) (q : CreateBookingRequest)
    (n : Time) (f : Faults) :
    ∃ pc1, InFlight.step s db ⟨u, q, n, f, Pc.start⟩ = (db, ⟨u, q, n, f, pc1⟩) ∧
      ((∃ e, pc1 = Pc.done none (some e)) ∨ ∃ ev, pc1 = Pc.locked ev) := by
  cases hb : f.txBegin
  · cases hl : eventRepository.LockForUpdate db f.lockForUpdate q.EventID with
    | error e =>
      exact ⟨Pc.done none (some Error.eventNotFound), by simp [InFlight.step, hb, hl],
        Or.inl ⟨_, rfl⟩⟩
    | ok event =>
      by_cases hlt : event.TotalTickets < q.TicketCount
      · exact ⟨Pc.done none (some (Error.notEnoughTicketsOnly event.TotalTickets)),
          by simp [InFlight.step, hb, hl, hlt], Or.inl ⟨_, rfl⟩⟩
      · exact ⟨Pc.locked event, by simp [InFlight.step, hb, hl, hlt], Or.inr ⟨_, rfl⟩⟩
  · exact ⟨Pc.done none (some Error.database), by simp [InFlight.step, hb], Or.inl ⟨_, rfl⟩⟩

theorem step_locked (s : bookingService) (db : DB) (u : Int) (q : CreateBookingRequest)
    (n : Time) (f : Faults) (ev : Event) :
    InFlight.step s db ⟨u, q, n, f, Pc.locked ev⟩ =
      ((eventRepository.DecrementTickets db f.decrementTickets q.EventID q.TicketCount).1,
       ⟨u, q, n, f,
        match (eventRepository.DecrementTickets db f.decrementTickets q.EventID
            q.TicketCount).2 with
        | some e => Pc.done none (some e)
        | none => Pc.decremented ev⟩) := by
  simp only [InFlight.step]
  rcases eventRepository.DecrementTickets db f.decrementTickets q.EventID
    q.TicketCount with ⟨d1, e1⟩
  cases e1 <;> rfl

theorem step_decremented (s : bookingService) (db : DB) (u : Int) (q : CreateBookingRequest)
    (n : Time) (f : Faults) (ev : Event) :
    ∃ b e, InFlight.step s db ⟨u, q, n, f, Pc.decremented ev⟩ =
      ((bookingRepository.Create db f.create
          { ID := 0, UserID := u, EventID := q.EventID, TicketCount := q.TicketCount,
            TotalPrice := Float64.mul (Float64.ofInt q.TicketCount) ev.TicketPrice,
            Status := BookingStatus.PENDING, ExpiresAt := n + s.timeout,
            ConfirmedAt := none, CancelledAt := none }).1,
       ⟨u, q, n, f, Pc.done (some b) e⟩) := by
  simp only [InFlight.step]
  rcases bookingRepository.Create db f.create
    { ID := 0, UserID := u, EventID := q.EventID, TicketCount := q.TicketCount,
      TotalPrice := Float64.mul (Float64.ofInt q.TicketCount) ev.TicketPrice,
      Status := BookingStatus.PENDING, ExpiresAt := n + s.timeout,
      ConfirmedAt := none, CancelledAt := none } with ⟨d2, b2, e2⟩
  cases e2 with
  | some e => exact ⟨_, _, rfl⟩
  | none =>
    cases f.txCommit
    · exact ⟨_, _, rfl⟩
    · exact ⟨_, _, rfl⟩

theorem step_req (s : bookingService) (db : DB) (t : InFlight) :
    (t.step s db).2.req = t.req := by
  obtain ⟨u, q, n, f, pc⟩ := t
  cases pc with
  | start =>
    obtain ⟨pc1, h, _⟩ := step_start s db u q n f
    rw [h]
  | locked ev => rw [step_locked]
  | decremented ev =>
    obtain ⟨b, e, h⟩ := step_decremented s db u q n f ev
    rw [h]
  | done b e => rfl

theorem map_ite_of_filter_nil {α : Type} (p : α → Bool) (g : α → α) (l : List α)
    (h : (l.filter p).length = 0) : l.map (fun e => if p e then g e else e) = l := by
  rw [List.length_eq_zero, List.filter_eq_nil_iff] at h
  conv_rhs => rw [← List.map_id l]
  apply List.map_congr_left
  intro e he
  have := h e he
  simp [this]

theorem DecrementTickets_remaining (db : DB) (fail : Bool) (id count id0 r : Int)
    (hnd : (db.events.map (fun e => e.ID)).Nodup)
    (hr : remaining db id0 = some r) (h0 : 0 ≤ r) :
    ((eventRepository.DecrementTickets db fail id count).1.events.map (fun e => e.ID)
      = db.events.map (fun e => e.ID)) ∧
    (∀ e, (eventRepository.DecrementTickets db fail id count).2 = some e →
      remaining (eventRepository.DecrementTickets db fail id count).1 id0 = some r) ∧
    ((eventRepository.DecrementTickets db fail id count).2 = none →
      remaining (eventRepository.DecrementTickets db fail id count).1 id0
        = some (r - (if id = id0 then count else 0)) ∧
      0 ≤ r - (if id = id0 then count else 0)) := by
  unfold eventRepository.DecrementTickets
  cases fail
  · simp only [Bool.false_eq_true, if_false]
    have hids : (db.events.map (fun e =>
        if decrementMatches id count e = true then
          ({ e with TotalTickets := e.TotalTickets - count } : Event) else e)).map
          (fun e => e.ID) = db.events.map (fun e => e.ID) := by
      rw [List.map_map]
      apply List.map_congr_left
      intro e _
      by_cases hm : decrementMatches id count e = true <;> simp [hm]
    by_cases hrows : (db.events.filter (decrementMatches id count)).length = 0
    · simp only [hrows, if_true]
      refine ⟨hids, ?_, ?_⟩
      · intro _ _
        show remaining (DB.mk (db.events.map _) db.bookings db.nextBookingID) id0 = _
        rw [map_ite_of_filter_nil (decrementMatches id count) _ db.events hrows]
        exact hr
      · intro h; cases h
    · simp only [hrows, if_false]
      refine ⟨hids, ?_, ?_⟩
      · intro e h; cases h
      · intro _
        obtain ⟨e, he⟩ := List.exists_mem_of_length_pos (Nat.pos_of_ne_zero hrows)
        rw [List.mem_filter] at he
        have hem : e.ID = id ∧ count ≤ e.TotalTickets := by
          simpa [decrementMatches] using he.2
        unfold remaining at hr
        cases hf : db.events.find? (fun e => e.ID = id0) with
        | none => rw [hf] at hr; cases hr
        | some e0 =>
          rw [hf] at hr
          have hr0 : e0.TotalTickets = r := by simpa using hr
          have he0 := find_some_mem _ _ _ hf
          have hid0 : e0.ID = id0 := by simpa using he0.2
          show remaining (DB.mk (db.events.map (fun e =>
            if decrementMatches id count e = true then
              ({ e with TotalTickets := e.TotalTickets - count } : Event) else e))
              db.bookings db.nextBookingID) id0 = _ ∧ _
          rw [remaining_map db id0 _ (by
            intro x; by_cases hm : decrementMatches id count x = true <;> simp [hm]), hf]
          by_cases hid : id = id0
          · have heq : e = e0 :=
              List.inj_on_of_nodup_map hnd he.1 he0.1 (by
                show e.ID = e0.ID
                rw [hem.1, hid0, hid])
            subst heq
            have hc := hem.2
            refine ⟨?_, ?_⟩
            · simp only [he.2, if_true, if_pos hid, Option.map_some', hr0]
            · rw [if_pos hid]
              omega
          · have hm : decrementMatches id count e0 = false := by
              have : ¬ e0.ID = id := fun h => hid (h.symm.trans hid0)
              simp [decrementMatches, this]
            refine ⟨?_, ?_⟩
            · simp only [hm, Bool.false_eq_true, if_false, if_neg hid, Option.map_some', hr0,
                sub_zero]
            · rw [if_neg hid]
              omega
  · refine ⟨rfl, fun _ _ => hr, fun h => by cases h⟩

theorem Create_events (db : DB) (fail : Bool) (b : Booking) :
    (bookingRepository.Create db fail b).1.events = db.events := by
  unfold bookingRepository.Create
  cases fail <;> rfl

theorem remaining_of_events (db1 db2 : DB) (h : db1.events = db2.events) (id : Int) :
    remaining db1 id = remaining db2 id := by
  unfold remaining
  rw [h]

/-- One store call of one call keeps the unique event ids, the soundness of
the call, and the sum of the remaining count and the tickets the call has
taken; the remaining count stays non-negative. -/
theorem step_inv (s : bookingService) (db : DB) (t : InFlight) (id0 r : Int)
    (hnd : (db.events.map (fun e => e.ID)).Nodup)
    (hr : remaining db id0 = some r) (h0 : 0 ≤ r) (hs : t.sound) :
    ((t.step s db).1.events.map (fun e => e.ID)).Nodup ∧ (t.step s db).2.sound ∧
    ∃ r1, remaining (t.step s db).1 id0 = some r1 ∧ 0 ≤ r1 ∧
      r1 + takenW id0 (t.step s db).2 = r + takenW id0 t := by
  obtain ⟨u, q, n, f, pc⟩ := t
  cases pc with
  | start =>
    obtain ⟨pc1, h, hpc⟩ := step_start s db u q n f
    rw [h]
    refine ⟨hnd, ?_, r, hr, h0, ?_⟩
    · rcases hpc with ⟨e, rfl⟩ | ⟨ev, rfl⟩ <;> simp [InFlight.sound]
    · rcases hpc with ⟨e, rfl⟩ | ⟨ev, rfl⟩ <;> simp [takenW, InFlight.tookTickets]
  | locked event =>
    have hD := DecrementTickets_remaining db f.decrementTickets q.EventID q.TicketCount id0 r
      hnd hr h0
    rw [step_locked]
    rcases hd : eventRepository.DecrementTickets db f.decrementTickets q.EventID
      q.TicketCount with ⟨d1, e1⟩
    rw [hd] at hD
    cases e1 with
    | some e =>
      refine ⟨by rw [hD.1]; exact hnd, by simp [InFlight.sound], r, hD.2.1 e rfl, h0, ?_⟩
      simp [takenW, InFlight.tookTickets]
    | none =>
      have h2 := hD.2.2 rfl
      refine ⟨by rw [hD.1]; exact hnd, by simp [InFlight.sound], _, h2.1, h2.2, ?_⟩
      by_cases hid : q.EventID = id0 <;> simp [takenW, InFlight.tookTickets, hid]
  | decremented event =>
    obtain ⟨b, e, h⟩ := step_decremented s db u q n f event
    rw [h]
    have hev := Create_events db f.create
      { ID := 0, UserID := u, EventID := q.EventID, TicketCount := q.TicketCount,
        TotalPrice := Float64.mul (Float64.ofInt q.TicketCount) event.TicketPrice,
        Status := BookingStatus.PENDING, ExpiresAt := n + s.timeout,
        ConfirmedAt := none, CancelledAt := none }
    refine ⟨by rw [hev]; exact hnd, by simp [InFlight.sound], r, ?_, h0, ?_⟩
    · rw [remaining_of_events _ db hev]; exact hr
    · simp [takenW, InFlight.tookTickets]
  | done b e =>
    simp only [InFlight.step]
    exact ⟨hnd, hs, r, hr, h0, rfl⟩

theorem sum_map_set (w : InFlight → Int) :
    ∀ (l : List InFlight) (i : Nat) (t t1 : InFlight), l[i]? = some t →
      ((l.set i t1).map w).sum = (l.map w).sum - w t + w t1 := by
  intro l
  induction l with
  | nil => intro i t t1 h; simp at h
  | cons a rest ih =>
    intro i t t1 h
    cases i with
    | zero =>
      simp only [List.getElem?_cons_zero, Option.some.injEq] at h
      subst h
      simp only [List.set_cons_zero, List.map_cons, List.sum_cons]
      ring
    | succ j =>
      simp only [List.getElem?_cons_succ] at h
      simp only [List.set_cons_succ, List.map_cons, List.sum_cons, ih j t t1 h]
      ring

theorem stepAt_inv (s : bookingService) (id K : Int) (cfg : DB × List InFlight) (i : Nat)
    (h : SchedInv id K cfg) : SchedInv id K (stepAt s cfg i) := by
  unfold stepAt
  cases hi : cfg.2[i]? with
  | none => exact h
  | some t =>
    obtain ⟨hnd, hsound, r, hr, h0, hsum⟩ := h
    have ht : t ∈ cfg.2 := List.getElem?_mem hi
    obtain ⟨hnd1, hs1, r1, hr1, h01, hstep⟩ := step_inv s cfg.1 t id r hnd hr h0 (hsound t ht)
    refine ⟨hnd1, ?_, r1, hr1, h01, ?_⟩
    · intro x hx
      rcases List.mem_or_eq_of_mem_set hx with hx | rfl
      · exact hsound x hx
      · exact hs1
    · show r1 + ((cfg.2.set i (t.step s cfg.1).2).map (takenW id)).sum = K
      rw [sum_map_set (takenW id) cfg.2 i t _ hi]
      have hsum2 : r + (cfg.2.map (takenW id)).sum = K := hsum
      omega

theorem runSchedule_inv (s : bookingService) (id K : Int) (schedule : List Nat) :
    ∀ cfg, SchedInv id K cfg → SchedInv id K (runSchedule s cfg schedule) := by
  induction schedule with
  | nil => intro cfg h; exact h
  | cons i rest ih => intro cfg h; exact ih _ (stepAt_inv s id K cfg i h)

theorem stepAt_req (s : bookingService) (P : CreateBookingRequest → Prop)
    (cfg : DB × List InFlight) (i : Nat) (h : ∀ t ∈ cfg.2, P t.req) :
    ∀ t ∈ (stepAt s cfg i).2, P t.req := by
  unfold stepAt
  cases hi : cfg.2[i]? with
  | none => exact h
  | some t0 =>
    intro x hx
    rcases List.mem_or_eq_of_mem_set hx with hx | rfl
    · exact h x hx
    · rw [step_req]
      exact h t0 (List.getElem?_mem hi)

theorem runSchedule_req (s : bookingService) (P : CreateBookingRequest → Prop)
    (schedule : List Nat) :
    ∀ cfg : DB × List InFlight, (∀ t ∈ cfg.2, P t.req) →
      ∀ t ∈ (runSchedule s cfg schedule).2, P t.req := by
  induction schedule with
  | nil => intro cfg h; exact h
  | cons i rest ih => intro cfg h; exact ih _ (stepAt_req s P cfg i h)

theorem soldW_le_takenW (id : Int) (t : InFlight) (hs : t.sound)
    (hc : 0 ≤ t.req.TicketCount) : soldW id t ≤ takenW id t := by
  obtain ⟨u, q, n, f, pc⟩ := t
  cases pc with
  | start => simp [soldW, takenW, InFlight.succeeded, InFlight.tookTickets]
  | locked ev => simp [soldW, takenW, InFlight.succeeded, InFlight.tookTickets]
  | decremented ev =>
    by_cases hid : q.EventID = id <;>
      simp [soldW, takenW, InFlight.succeeded, InFlight.tookTickets, hid]
    exact hc
  | done b e =>
    cases b with
    | none =>
      cases e with
      | none => exact absurd rfl hs
      | some e => simp [soldW, takenW, InFlight.succeeded, InFlight.tookTickets]
    | some b =>
      cases e with
      | none => simp [soldW, takenW, InFlight.succeeded, InFlight.tookTickets]
      | some e =>
        by_cases hid : q.EventID = id <;>
          simp [soldW, takenW, InFlight.succeeded, InFlight.tookTickets, hid]
        exact hc

theorem soldFor_le_takenFor (id : Int) (ts : List InFlight) (hs : ∀ t ∈ ts, t.sound)
    (hc : ∀ t ∈ ts, 0 ≤ t.req.TicketCount) : soldFor id ts ≤ takenFor id ts := by
  induction ts with
  | nil => exact le_refl _
  | cons a rest ih =>
    show soldW id a + (rest.map (soldW id)).sum ≤ takenW id a + (rest.map (takenW id)).sum
    have h1 := soldW_le_takenW id a (hs a (List.mem_cons_self _ _))
      (hc a (List.mem_cons_self _ _))
    have h2 : (rest.map (soldW id)).sum ≤ (rest.map (takenW id)).sum :=
      ih (fun t ht => hs t (List.mem_cons_of_mem _ ht))
        (fun t ht => hc t (List.mem_cons_of_mem _ ht))
    omega

theorem takenFor_start (id : Int) (ts : List InFlight) (h : ∀ t ∈ ts, t.pc = Pc.start) :
    takenFor id ts = 0 := by
  induction ts with
  | nil => rfl
  | cons a rest ih =>
    show takenW id a + (rest.map (takenW id)).sum = 0
    have ha := h a (List.mem_cons_self _ _)
    have h1 : takenW id a = 0 := by simp [takenW, InFlight.tookTickets, ha]
    have h2 : (rest.map (takenW id)).sum = 0 := ih (fun t ht => h t (List.mem_cons_of_mem _ ht))
    omega

/-- No oversell for requests with non-negative counts.  Start from a database
with unique event ids in which the event has `K ≥ 0` tickets remaining, and
from any number of CreateBooking calls that have not begun.  After every
interleaving of their store calls, whatever store calls fail, the remaining
count `r` is non-negative and the tickets taken by the calls that have
decremented are exactly `K - r`, hence at most `K`; and when no call asks for a
negative count, the tickets of the successful reservations are at most `K`. -/
theorem schedule_no_oversell (s : bookingService) (db : DB) (ts : List InFlight)
    (schedule : List Nat) (id K : Int)
    (hnd : (db.events.map (fun e => e.ID)).Nodup) (hK : remaining db id = some K)
    (h0 : 0 ≤ K) (hstart : ∀ t ∈ ts, t.pc = Pc.start) :
    ∃ r, remaining (runSchedule s (db, ts) schedule).1 id = some r ∧ 0 ≤ r ∧
      takenFor id (runSchedule s (db, ts) schedule).2 = K - r ∧
      takenFor id (runSchedule s (db, ts) schedule).2 ≤ K ∧
      ((∀ t ∈ ts, 0 ≤ t.req.TicketCount) →
        soldFor id (runSchedule s (db, ts) schedule).2 ≤ K) := by
  have hinit : SchedInv id K (db, ts) := by
    refine ⟨hnd, ?_, K, hK, h0, ?_⟩
    · intro t ht
      have := hstart t ht
      simp [InFlight.sound, this]
    · show K + takenFor id ts = K
      rw [takenFor_start id ts hstart]
      omega
  obtain ⟨_, hsound, r, hr, hr0, hsum⟩ := runSchedule_inv s id K schedule (db, ts) hinit
  refine ⟨r, hr, hr0, by omega, by omega, ?_⟩
  intro hc
  have hc2 := runSchedule_req s (fun q => 0 ≤ q.TicketCount) schedule (db, ts) hc
  have := soldFor_le_takenFor id _ hsound hc2
  omega

theorem soldFor_eq_successes (id : Int) (ts : List InFlight)
    (h : ∀ t ∈ ts, t.req.EventID = id ∧ t.req.TicketCount = 1) :
    soldFor id ts = (successes ts : Int) := by
  induction ts with
  | nil => rfl
  | cons a rest ih =>
    have ha := h a (List.mem_cons_self _ _)
    have h2 : soldFor id rest = (successes rest : Int) :=
      ih (fun t ht => h t (List.mem_cons_of_mem _ ht))
    show soldW id a + (rest.map (soldW id)).sum = _
    have h3 : (rest.map (soldW id)).sum = (successes rest : Int) := h2
    rw [h3]
    unfold successes
    by_cases hs : a.succeeded = true
    · simp [soldW, hs, ha.1, ha.2, List.filter_cons]
      ring
    · simp [soldW, hs, List.filter_cons]

/-- The scenario of `TestConcurrentBookings`: 15 calls of 1 ticket each on an
event with 10 tickets; in every interleaving at most 10 succeed. -/
theorem fifteen_on_ten (schedule : List Nat) :
    successes (runSchedule sampleService (sampleDB, fifteenCalls) schedule).2 ≤ 10 := by
  obtain ⟨r, _, _, _, _, hsold⟩ := schedule_no_oversell sampleService sampleDB fifteenCalls
    schedule 1 10 (by decide) (by decide) (by decide) (by decide)
  have hreq := runSchedule_req sampleService
    (fun q => q.EventID = 1 ∧ q.TicketCount = 1) schedule (sampleDB, fifteenCalls) (by decide)
  have h1 := hsold (by decide)
  rw [soldFor_eq_successes 1 _ hreq] at h1
  exact_mod_cast h1

set_option maxRecDepth 100000 in
/-- In the round-robin interleaving of the 15 calls exactly 10 succeed and no
ticket remains. -/
theorem fifteen_on_ten_round_robin :
    successes (runSchedule sampleService (sampleDB, fifteenCalls) roundRobin).2 = 10 ∧
    remaining (runSchedule sampleService (sampleDB, fifteenCalls) roundRobin).1 1 = some 0 :=
  ⟨rfl, rfl⟩

/-! ## the claims -/

/-- C1 (conservation).  Start from one event with `T = ev.TotalTickets`
tickets and no booking, and run any sequence of CreateBooking, ConfirmPayment,
CancelBooking and ProcessExpiredBookings calls one after the other, no store
call failing.  Then the event still exists and the sum of `TicketCount` over
its PENDING and CONFIRMED bookings plus its stored remaining count is `T`. -/
theorem conservation_of_tickets (s : bookingService) (ev : Event) (next : Int)
    (calls : List (Time × Call)) :
    ∃ r, remaining (runOk s (DB.mk [ev] [] next) calls) ev.ID = some r ∧
      heldTickets (runOk s (DB.mk [ev] [] next) calls) ev.ID + r = ev.TotalTickets := by
  have hwf : (DB.mk [ev] [] next).bookingsWF := ⟨List.nodup_nil, by intro b hb; cases hb⟩
  have h := (runOk_inv s ev.ID calls _ hwf).2
  have h0 : total (DB.mk [ev] [] next) ev.ID = some ev.TotalTickets := by
    simp [total, remaining, heldTickets]
  rw [h0] at h
  unfold total at h
  cases hr : remaining (runOk s (DB.mk [ev] [] next) calls) ev.ID with
  | none => rw [hr] at h; cases h
  | some r =>
    rw [hr] at h
    simp only [Option.map_some', Option.some.injEq] at h
    exact ⟨r, rfl, h⟩

/-- C2.  On the sample event with 10 tickets remaining: (a) a call asks for
-5 tickets and its ledger insert fails after its decrement, then a call asks
for 15 tickets: the second call succeeds, so the successful reservations hold
15 tickets of an event that had 10, and no ticket remains; (b) with no store
call failing, the call for -5 tickets has decremented and not yet inserted its
booking when the call for 15 tickets returns successfully: again 15 tickets
are in successful reservations. -/
theorem oversell_after_negative_request :
    remaining sampleDB 1 = some 10 ∧
    (soldFor 1 (runSchedule sampleService (sampleDB, failedNegativeThenLarge)
        [0, 0, 0, 1, 1, 1]).2 = 15 ∧
     successes (runSchedule sampleService (sampleDB, failedNegativeThenLarge)
        [0, 0, 0, 1, 1, 1]).2 = 1 ∧
     remaining (runSchedule sampleService (sampleDB, failedNegativeThenLarge)
        [0, 0, 0, 1, 1, 1]).1 1 = some 0) ∧
    (soldFor 1 (runSchedule sampleService (sampleDB, negativeThenLarge) [0, 0, 1, 1, 1]).2 = 15 ∧
     successes (runSchedule sampleService (sampleDB, negativeThenLarge) [0, 0, 1, 1, 1]).2
        = 1) := by
  decide

/-- C3.  With 10 tickets remaining, book -5 tickets (remaining 15), book 15
tickets (remaining 0), cancel the first booking: the remaining count is -5. -/
theorem negative_inventory_reached :
    remaining sampleDB 1 = some 10 ∧
    remaining (runOk sampleService sampleDB
      [(0, Call.createBooking 7 { EventID := 1, TicketCount := -5 }),
       (1, Call.createBooking 8 { EventID := 1, TicketCount := 15 }),
       (2, Call.cancelBooking 1)]) 1 = some (-5) := by
  decide

/-- C4.  A request for 0 tickets and a request for -5 tickets are both
accepted: no error, a booking is stored, and the second one raises the
remaining count from 10 to 15. -/
theorem nonpositive_count_accepted :
    (sampleService.CreateBooking sampleDB 0 Faults.none 7 { EventID := 1, TicketCount := 0 }).2.2
      = none ∧
    (sampleService.CreateBooking sampleDB 0 Faults.none 7
      { EventID := 1, TicketCount := 0 }).1.bookings.length = 1 ∧
    (sampleService.CreateBooking sampleDB 0 Faults.none 7 { EventID := 1, TicketCount := -5 }).2.2
      = none ∧
    (sampleService.CreateBooking sampleDB 0 Faults.none 7
      { EventID := 1, TicketCount := -5 }).1.bookings.length = 1 ∧
    remaining (sampleService.CreateBooking sampleDB 0 Faults.none 7
      { EventID := 1, TicketCount := -5 }).1 1 = some 15 := by
  decide

/-- C5.  (a) With 10 tickets remaining, a CreateBooking of 3 tickets whose
ledger insert fails returns an error, yet the remaining count stays
decremented to 7 and no booking is stored.  (b) A CancelBooking whose ticket
release fails returns an error, yet the booking is CANCELLED and the remaining
count is still 7. -/
theorem failed_call_keeps_partial_effect :
    ((sampleService.CreateBooking sampleDB 0 { Faults.none with create := true } 7
        { EventID := 1, TicketCount := 3 }).2.2
      = some (Error.failedToCreateBooking Error.database) ∧
     remaining (sampleService.CreateBooking sampleDB 0 { Faults.none with create := true } 7
        { EventID := 1, TicketCount := 3 }).1 1 = some 7 ∧
     (sampleService.CreateBooking sampleDB 0 { Faults.none with create := true } 7
        { EventID := 1, TicketCount := 3 }).1.bookings = []) ∧
    (statusOf (sampleService.CreateBooking sampleDB 0 Faults.none 7
        { EventID := 1, TicketCount := 3 }).1 1 = some BookingStatus.PENDING ∧
     (bookingService.CancelBooking (sampleService.CreateBooking sampleDB 0 Faults.none 7
        { EventID := 1, TicketCount := 3 }).1 5 { Faults.none with incrementTickets := true } 1).2
      = some (Error.failedToRelease Error.database) ∧
     statusOf (bookingService.CancelBooking (sampleService.CreateBooking sampleDB 0 Faults.none 7
        { EventID := 1, TicketCount := 3 }).1 5 { Faults.none with incrementTickets := true } 1).1 1
      = some BookingStatus.CANCELLED ∧
     remaining (bookingService.CancelBooking (sampleService.CreateBooking sampleDB 0 Faults.none 7
        { EventID := 1, TicketCount := 3 }).1 5 { Faults.none with incrementTickets := true } 1).1 1
      = some 7) := by
  decide

/-- C6.  For an existing event with remaining count `R = ev.TotalTickets` and
a request for more than `R` tickets, CreateBooking (the transaction opening
and the event read not failing) returns the error "not enough tickets
available. Only R tickets left" and a nil booking, and the database is the one
before the call: no booking is written and the remaining count is `R`. -/
theorem insufficient_inventory_rejected (s : bookingService) (db : DB) (now : Time) (f : Faults)
    (userID : Int) (req : CreateBookingRequest) (ev : Event)
    (hfind : db.events.find? (fun e => e.ID = req.EventID) = some ev)
    (hgt : req.TicketCount > ev.TotalTickets)
    (hbegin : f.txBegin = false) (hlock : f.lockForUpdate = false) :
    s.CreateBooking db now f userID req
      = (db, none, some (Error.notEnoughTicketsOnly ev.TotalTickets)) ∧
    (s.CreateBooking db now f userID req).1.bookings = db.bookings ∧
    remaining (s.CreateBooking db now f userID req).1 req.EventID = some ev.TotalTickets := by
  have hlt : ev.TotalTickets < req.TicketCount := hgt
  have h : s.CreateBooking db now f userID req
      = (db, none, some (Error.notEnoughTicketsOnly ev.TotalTickets)) := by
    simp [bookingService.CreateBooking, Transaction, eventRepository.LockForUpdate, hbegin,
      hlock, hfind, hlt]
  refine ⟨h, ?_, ?_⟩
  · rw [h]
  · rw [h]
    simp [remaining, hfind]

/-- C6 at 5 tickets: the first booking of 3 has succeeded (remaining 2), the
second booking of 3 is rejected and the remaining count is 2. -/
theorem insufficient_inventory_rejected_witness :
    remaining scenarioB 1 = some 2 ∧
    (sampleService.CreateBooking scenarioB 1 Faults.none 8 { EventID := 1, TicketCount := 3 }
        = (scenarioB, none, some (Error.notEnoughTicketsOnly 2)) ∧
     (sampleService.CreateBooking scenarioB 1 Faults.none 8
        { EventID := 1, TicketCount := 3 }).1.bookings = scenarioB.bookings ∧
     remaining (sampleService.CreateBooking scenarioB 1 Faults.none 8
        { EventID := 1, TicketCount := 3 }).1 1 = some 2) :=
  ⟨by decide,
   insufficient_inventory_rejected sampleService scenarioB 1 Faults.none 8
     { EventID := 1, TicketCount := 3 } { ID := 1, TotalTickets := 2, TicketPrice := Float64.bits 0 }
     (by decide) (by decide) rfl rfl⟩

/-- C7.  For an existing event with remaining count `R = ev.TotalTickets` and
a request with `1 ≤ TicketCount ≤ R` (`TicketCount = R` included), CreateBooking
at time `now`, no store call failing, returns no error and a booking with the
given user, event and ticket count, status PENDING and
`ExpiresAt = now + timeoutMinutes` minutes; that booking is appended to the
ledger and the remaining count is `R - TicketCount`.  The timeout is the one
`NewBookingService timeoutMinutes` computes, `timeoutMinutes` minutes being
representable as a `time.Duration`. -/
theorem reservation_succeeds (timeoutMinutes : Int) (db : DB) (now : Time) (userID : Int)
    (req : CreateBookingRequest) (ev : Event)
    (hrange : -2 ^ 63 ≤ timeoutMinutes * Minute ∧ timeoutMinutes * Minute < 2 ^ 63)
    (hfind : db.events.find? (fun e => e.ID = req.EventID) = some ev)
    (_hpos : 1 ≤ req.TicketCount) (hle : req.TicketCount ≤ ev.TotalTickets) :
    ∃ d b, (NewBookingService timeoutMinutes).CreateBooking db now Faults.none userID req
        = (d, some b, none) ∧
      b.UserID = userID ∧ b.EventID = req.EventID ∧ b.TicketCount = req.TicketCount ∧
      b.Status = BookingStatus.PENDING ∧ b.ExpiresAt = now + timeoutMinutes * Minute ∧
      d.bookings = db.bookings ++ [b] ∧
      remaining d req.EventID = some (ev.TotalTickets - req.TicketCount) := by
  have hge : ¬ ev.TotalTickets < req.TicketCount := not_lt.2 hle
  refine ⟨_, _, CreateBooking_found _ db now userID req ev hfind hge, rfl, rfl, rfl, rfl, ?_, rfl,
    remaining_createdDB _ db now userID req ev hfind hge⟩
  show now + wrapInt64 (timeoutMinutes * Minute) = now + timeoutMinutes * Minute
  rw [wrapInt64_of_range _ hrange.1 hrange.2]

/-- C7 at the default timeout of 15 minutes: all 10 remaining tickets of the
sample event are reserved at once. -/
theorem reservation_succeeds_witness :
    (-2 ^ 63 ≤ (15 : Int) * Minute ∧ (15 : Int) * Minute < 2 ^ 63) ∧
    sampleDB.events.find? (fun e => e.ID = 1) = some sampleEvent ∧
    ∃ d b, (NewBookingService 15).CreateBooking sampleDB 1000 Faults.none 7
        { EventID := 1, TicketCount := 10 } = (d, some b, none) ∧
      b.UserID = 7 ∧ b.EventID = 1 ∧ b.TicketCount = 10 ∧
      b.Status = BookingStatus.PENDING ∧ b.ExpiresAt = 1000 + 15 * Minute ∧
      d.bookings = sampleDB.bookings ++ [b] ∧
      remaining d 1 = some (10 - 10) :=
  ⟨by decide, by decide,
   reservation_succeeds 15 sampleDB 1000 7 { EventID := 1, TicketCount := 10 } sampleEvent
     (by decide) (by decide) (by decide) (by decide)⟩

/-- C9.  For a stored PENDING booking and a time `now` later than its
`ExpiresAt`, ConfirmPayment leaves the database as it was, so the booking is
still PENDING and not CONFIRMED; the call returns an error, which is "booking
has expired" whenever the read of the booking does not fail.  Nothing is
assumed about a reclaim sweep. -/
theorem confirm_after_deadline_rejected (db : DB) (now : Time) (f : Faults) (id : Int)
    (b : Booking) (hfind : db.bookings.find? (fun b => b.ID = id) = some b)
    (hst : b.Status = BookingStatus.PENDING) (hlate : now > b.ExpiresAt) :
    (bookingService.ConfirmPayment db now f id).1 = db ∧
    statusOf (bookingService.ConfirmPayment db now f id).1 id = some BookingStatus.PENDING ∧
    (bookingService.ConfirmPayment db now f id).2 ≠ none ∧
    (f.getByID = false →
      (bookingService.ConfirmPayment db now f id).2 = some Error.bookingHasExpired) := by
  have hdb : (bookingService.ConfirmPayment db now f id).1 = db := by
    cases hf : f.getByID <;>
      simp [bookingService.ConfirmPayment, bookingRepository.GetByID, hf, hfind, hst, hlate]
  refine ⟨hdb, ?_, ?_, ?_⟩
  · rw [hdb]
    simp [statusOf, hfind, hst]
  · cases hf : f.getByID <;>
      simp [bookingService.ConfirmPayment, bookingRepository.GetByID, hf, hfind, hst, hlate]
  · intro hf
    simp [bookingService.ConfirmPayment, bookingRepository.GetByID, hf, hfind, hst, hlate]

/-- C9 at deadline 100 and `now = 101`, no reclaim sweep having run. -/
theorem confirm_after_deadline_rejected_witness :
    (bookingService.ConfirmPayment pendingDB 101 Faults.none 1).1 = pendingDB ∧
    statusOf (bookingService.ConfirmPayment pendingDB 101 Faults.none 1).1 1
      = some BookingStatus.PENDING ∧
    (bookingService.ConfirmPayment pendingDB 101 Faults.none 1).2 ≠ none ∧
    (Faults.none.getByID = false →
      (bookingService.ConfirmPayment pendingDB 101 Faults.none 1).2
        = some Error.bookingHasExpired) :=
  confirm_after_deadline_rejected pendingDB 101 Faults.none 1 pendingBooking
    (by decide) (by decide) (by decide)

/-- C10, the claim refuted: at `now = ExpiresAt = 100` ConfirmPayment of the
PENDING booking returns no error and the booking becomes CONFIRMED. -/
theorem confirm_at_deadline_not_rejected :
    statusOf pendingDB 1 = some BookingStatus.PENDING ∧
    pendingBooking.ExpiresAt = 100 ∧
    (bookingService.ConfirmPayment pendingDB 100 Faults.none 1).2 = none ∧
    statusOf (bookingService.ConfirmPayment pendingDB 100 Faults.none 1).1 1
      = some BookingStatus.CONFIRMED := by
  decide

/-- C10 as amended.  For a stored PENDING booking, a ConfirmPayment call made
at `now` equal to its `ExpiresAt` is never answered with "booking has
expired"; when the read and the status update do not fail it returns nil and
the booking becomes CONFIRMED. -/
theorem confirm_at_deadline_accepted (db : DB) (f : Faults) (id : Int) (b : Booking)
    (hfind : db.bookings.find? (fun b => b.ID = id) = some b)
    (hst : b.Status = BookingStatus.PENDING) :
    (bookingService.ConfirmPayment db b.ExpiresAt f id).2 ≠ some Error.bookingHasExpired ∧
    (f.getByID = false → f.updateStatus = false →
      (bookingService.ConfirmPayment db b.ExpiresAt f id).2 = none ∧
      statusOf (bookingService.ConfirmPayment db b.ExpiresAt f id).1 id
        = some BookingStatus.CONFIRMED) := by
  have hup := UpdateStatus_found db b.ExpiresAt id BookingStatus.CONFIRMED b hfind
  refine ⟨?_, ?_⟩
  · cases hg : f.getByID
    · cases hu : f.updateStatus
      · simp [bookingService.ConfirmPayment, bookingRepository.GetByID, hg, hu, hfind, hst, hup]
      · simp [bookingService.ConfirmPayment, bookingRepository.GetByID, hg, hu, hfind, hst,
          bookingRepository.UpdateStatus]
    · simp [bookingService.ConfirmPayment, bookingRepository.GetByID, hg]
  · intro hg hu
    have h : bookingService.ConfirmPayment db b.ExpiresAt f id
        = (DB.mk db.events (db.bookings.map (fun x =>
            if x.ID = id then applyStatus BookingStatus.CONFIRMED b.ExpiresAt x else x))
            db.nextBookingID, none) := by
      simp [bookingService.ConfirmPayment, bookingRepository.GetByID, hg, hu, hfind, hst, hup]
    rw [h]
    refine ⟨rfl, ?_⟩
    rw [statusOf_update db db.events db.nextBookingID _ (applyStatus_ID _ _) id b hfind,
      applyStatus_Status]

/-- C10 as amended, at deadline 100 and `now = 100`. -/
theorem confirm_at_deadline_accepted_witness :
    (bookingService.ConfirmPayment pendingDB pendingBooking.ExpiresAt Faults.none 1).2
      ≠ some Error.bookingHasExpired ∧
    (Faults.none.getByID = false → Faults.none.updateStatus = false →
      (bookingService.ConfirmPayment pendingDB pendingBooking.ExpiresAt Faults.none 1).2 = none ∧
      statusOf (bookingService.ConfirmPayment pendingDB pendingBooking.ExpiresAt Faults.none 1).1 1
        = some BookingStatus.CONFIRMED) :=
  confirm_at_deadline_accepted pendingDB Faults.none 1 pendingBooking (by decide) (by decide)

/-- C11.  For a stored PENDING booking with ticket count `n` on an event with
remaining count `R`, cancel it twice in sequence (no store call failing in the
first call, the read of the booking not failing in the second).  The first
call returns nil, the second returns "booking already cancelled" and leaves
the database as the first call left it, and the remaining count at the end is
`R + n`. -/
theorem cancel_twice_releases_once (db : DB) (now1 now2 : Time) (f2 : Faults) (id : Int)
    (b : Booking) (R : Int)
    (hfind : db.bookings.find? (fun b => b.ID = id) = some b)
    (hst : b.Status = BookingStatus.PENDING) (hrem : remaining db b.EventID = some R)
    (hread : f2.getByID = false) :
    (bookingService.CancelBooking db now1 Faults.none id).2 = none ∧
    (bookingService.CancelBooking
      (bookingService.CancelBooking db now1 Faults.none id).1 now2 f2 id).2
        = some Error.alreadyCancelled ∧
    (bookingService.CancelBooking
      (bookingService.CancelBooking db now1 Faults.none id).1 now2 f2 id).1
        = (bookingService.CancelBooking db now1 Faults.none id).1 ∧
    remaining (bookingService.CancelBooking
      (bookingService.CancelBooking db now1 Faults.none id).1 now2 f2 id).1 b.EventID
        = some (R + b.TicketCount) := by
  have hid : b.ID = id := by simpa using (find_some_mem _ _ _ hfind).2
  have h1 := CancelBooking_pending db now1 id b hfind hst
  have hfind2 : (cancelledDB db now1 b).bookings.find? (fun b => b.ID = id)
      = some (applyStatus BookingStatus.CANCELLED now1 b) := by
    show (db.bookings.map _).find? _ = _
    rw [hid]
    exact find_update_eq db.bookings _ (applyStatus_ID _ _) id b hfind
  have h2 : bookingService.CancelBooking (cancelledDB db now1 b) now2 f2 id
      = (cancelledDB db now1 b, some Error.alreadyCancelled) := by
    simp [bookingService.CancelBooking, bookingRepository.GetByID, hread, hfind2,
      applyStatus_Status]
  rw [h1]
  simp only [h2]
  refine ⟨trivial, trivial, trivial, ?_⟩
  rw [remaining_cancelledDB, hrem]
  simp

/-- C11 on the booked sample state: after two cancellations of the booking of
3 tickets the remaining count is 10, not 13. -/
theorem cancel_twice_releases_once_witness :
    remaining bookedDB 1 = some 7 ∧
    ((bookingService.CancelBooking bookedDB 5 Faults.none 1).2 = none ∧
     (bookingService.CancelBooking
       (bookingService.CancelBooking bookedDB 5 Faults.none 1).1 6 Faults.none 1).2
         = some Error.alreadyCancelled ∧
     (bookingService.CancelBooking
       (bookingService.CancelBooking bookedDB 5 Faults.none 1).1 6 Faults.none 1).1
         = (bookingService.CancelBooking bookedDB 5 Faults.none 1).1 ∧
     remaining (bookingService.CancelBooking
       (bookingService.CancelBooking bookedDB 5 Faults.none 1).1 6 Faults.none 1).1 1
         = some (7 + 3)) :=
  ⟨by decide,
   cancel_twice_releases_once bookedDB 5 6 Faults.none 1 (newBooking sampleService sampleDB 0 7
     { EventID := 1, TicketCount := 3 } sampleEvent) 7 (by decide) (by decide) (by decide) rfl⟩

/-- C12, the claim refuted: on the stored CONFIRMED booking, UpdateStatus to
CANCELLED returns nil, and the stored status becomes CANCELLED with
`cancelled_at` set. -/
theorem update_status_overwrites_confirmed :
    statusOf confirmedSampleDB 1 = some BookingStatus.CONFIRMED ∧
    (bookingRepository.UpdateStatus confirmedSampleDB false 60 1 BookingStatus.CANCELLED).2
      = none ∧
    statusOf (bookingRepository.UpdateStatus confirmedSampleDB false 60 1
      BookingStatus.CANCELLED).1 1 = some BookingStatus.CANCELLED ∧
    ((bookingRepository.UpdateStatus confirmedSampleDB false 60 1
      BookingStatus.CANCELLED).1.bookings.find? (fun b => b.ID = 1)).map
        (fun b => b.CancelledAt) = some (some 60) := by
  decide

/-- C12 as amended.  UpdateStatus does not look at the stored status.  When a
booking with the id is stored, whatever its status, the statement (not
rejected by the database) returns nil and rewrites the rows of that id: the
status becomes the new one, `confirmed_at` is set when the new status is
CONFIRMED and `cancelled_at` when it is CANCELLED, the other timestamp being
kept.  When no booking has the id, it returns "booking not found" and changes
nothing. -/
theorem update_status_unconditional (db : DB) (now : Time) (id : Int) (st : BookingStatus) :
    (∀ b, db.bookings.find? (fun b => b.ID = id) = some b →
      (bookingRepository.UpdateStatus db false now id st).2 = none ∧
      (bookingRepository.UpdateStatus db false now id st).1.bookings.find? (fun b => b.ID = id)
        = some (applyStatus st now b) ∧
      (applyStatus st now b).Status = st ∧
      (st = BookingStatus.CONFIRMED →
        (applyStatus st now b).ConfirmedAt = some now ∧
        (applyStatus st now b).CancelledAt = b.CancelledAt) ∧
      (st = BookingStatus.CANCELLED →
        (applyStatus st now b).CancelledAt = some now ∧
        (applyStatus st now b).ConfirmedAt = b.ConfirmedAt)) ∧
    (db.bookings.find? (fun b => b.ID = id) = none →
      bookingRepository.UpdateStatus db false now id st = (db, some Error.bookingNotFound)) := by
  refine ⟨?_, ?_⟩
  · intro b hfind
    rw [UpdateStatus_found db now id st b hfind]
    refine ⟨rfl, find_update_eq db.bookings _ (applyStatus_ID _ _) id b hfind,
      applyStatus_Status _ _ _, ?_, ?_⟩
    · intro h; subst h; exact ⟨rfl, rfl⟩
    · intro h; subst h; exact ⟨rfl, rfl⟩
  · intro hfind
    simp only [bookingRepository.UpdateStatus, Bool.false_eq_true, if_false,
      filter_length_zero_of_find_none db.bookings id hfind,
      map_update_of_find_none db.bookings _ id hfind, if_true]

/-- C12 as amended, on the stored CONFIRMED booking and the absent id 9. -/
theorem update_status_unconditional_witness :
    (bookingRepository.UpdateStatus confirmedSampleDB false 60 1 BookingStatus.CANCELLED).2
      = none ∧
    (bookingRepository.UpdateStatus confirmedSampleDB false 60 1
      BookingStatus.CANCELLED).1.bookings.find? (fun b => b.ID = 1)
      = some (applyStatus BookingStatus.CANCELLED 60 confirmedBooking) ∧
    bookingRepository.UpdateStatus confirmedSampleDB false 60 9 BookingStatus.CANCELLED
      = (confirmedSampleDB, some Error.bookingNotFound) :=
  ⟨((update_status_unconditional confirmedSampleDB 60 1 BookingStatus.CANCELLED).1
      confirmedBooking (by decide)).1,
   ((update_status_unconditional confirmedSampleDB 60 1 BookingStatus.CANCELLED).1
      confirmedBooking (by decide)).2.1,
   (update_status_unconditional confirmedSampleDB 60 9 BookingStatus.CANCELLED).2 (by decide)⟩

/-- C13.  Run ProcessExpiredBookings at time `now`, no store call failing, on
a state whose booking ids are unique.  It returns nil.  The bookings
afterwards are the former ones, where each booking that was PENDING with
`ExpiresAt < now` is now CANCELLED with `cancelled_at = now` and every other
booking (CONFIRMED, CANCELLED, or PENDING with `now ≤ ExpiresAt`) is unchanged.
Each event's remaining count has grown by exactly the sum of the ticket counts
of its reclaimed bookings. -/
theorem reclaim_sweep_effect (db : DB) (now : Time)
    (hwf : (db.bookings.map (fun b => b.ID)).Nodup) :
    (bookingService.ProcessExpiredBookings db now false (fun _ => Faults.none)).2 = none ∧
    (bookingService.ProcessExpiredBookings db now false (fun _ => Faults.none)).1.bookings
      = db.bookings.map (fun b =>
          if b.Status = BookingStatus.PENDING ∧ b.ExpiresAt < now
            then applyStatus BookingStatus.CANCELLED now b else b) ∧
    (bookingService.ProcessExpiredBookings db now false (fun _ => Faults.none)).1.events
      = db.events.map (fun e =>
          { e with TotalTickets := e.TotalTickets + reclaimedTickets db now e.ID }) ∧
    ∀ eventID,
      remaining (bookingService.ProcessExpiredBookings db now false
          (fun _ => Faults.none)).1 eventID
        = (remaining db eventID).map (fun r => r + reclaimedTickets db now eventID) := by
  have hrun : bookingService.ProcessExpiredBookings db now false (fun _ => Faults.none)
      = (DB.mk
          (db.events.map (fun e =>
            { e with TotalTickets := e.TotalTickets + reclaimedTickets db now e.ID }))
          (db.bookings.map (fun b =>
            if b.Status = BookingStatus.PENDING ∧ b.ExpiresAt < now
              then applyStatus BookingStatus.CANCELLED now b else b))
          db.nextBookingID, none) := by
    simp only [bookingService.ProcessExpiredBookings, bookingRepository.GetExpiredPending,
      Bool.false_eq_true, if_false]
    rw [cancelAll_ok_eq now _ db (expired_nodup db now hwf) (by
      intro b hb
      have hm := expired_mem db now b hb
      exact ⟨find_of_nodup db.bookings hwf b hm.1, hm.2.1⟩)]
    congr 2
    · apply List.map_congr_left
      intro e _
      rw [ticketsFor_expired]
    · apply List.map_congr_left
      intro x hx
      have hiff := mem_expired_ids db now hwf x hx
      by_cases hr : reclaimable now x = true
      · have h1 := hiff.2 hr
        have h2 : x.Status = BookingStatus.PENDING ∧ x.ExpiresAt < now := by
          simpa [reclaimable] using hr
        rw [if_pos h1, if_pos h2]
      · have h1 : ¬ _ := fun h => hr (hiff.1 h)
        have h2 : ¬ (x.Status = BookingStatus.PENDING ∧ x.ExpiresAt < now) := by
          simpa [reclaimable] using hr
        rw [if_neg h1, if_neg h2]
  rw [hrun]
  refine ⟨rfl, rfl, rfl, ?_⟩
  intro eventID
  show remaining (DB.mk (db.events.map (fun e =>
    ({ e with TotalTickets := e.TotalTickets + reclaimedTickets db now e.ID } : Event))) _ _)
      eventID = _
  rw [remaining_map db eventID (fun e =>
    ({ e with TotalTickets := e.TotalTickets + reclaimedTickets db now e.ID } : Event))
      (fun _ => rfl)]
  unfold remaining
  cases hf : db.events.find? (fun e => e.ID = eventID) with
  | none => rfl
  | some e =>
    have he : e.ID = eventID := by simpa using (find_some_mem _ _ _ hf).2
    simp [he]

/-- C13 on scenario C: 2 of 10 tickets booked at time 0 with the timeout of
15 minutes, sweep 16 minutes later: the booking is CANCELLED and the remaining
count is back from 8 to 10. -/
theorem reclaim_sweep_effect_witness :
    (bookedTwoDB.bookings.map (fun b => b.ID)).Nodup ∧
    remaining bookedTwoDB 1 = some 8 ∧
    reclaimedTickets bookedTwoDB (16 * Minute) 1 = 2 ∧
    ((bookingService.ProcessExpiredBookings bookedTwoDB (16 * Minute) false
        (fun _ => Faults.none)).2 = none ∧
     (bookingService.ProcessExpiredBookings bookedTwoDB (16 * Minute) false
        (fun _ => Faults.none)).1.bookings
       = bookedTwoDB.bookings.map (fun b =>
           if b.Status = BookingStatus.PENDING ∧ b.ExpiresAt < 16 * Minute
             then applyStatus BookingStatus.CANCELLED (16 * Minute) b else b) ∧
     (bookingService.ProcessExpiredBookings bookedTwoDB (16 * Minute) false
        (fun _ => Faults.none)).1.events
       = bookedTwoDB.events.map (fun e =>
           { e with TotalTickets :=
               e.TotalTickets + reclaimedTickets bookedTwoDB (16 * Minute) e.ID }) ∧
     ∀ eventID,
       remaining (bookingService.ProcessExpiredBookings bookedTwoDB (16 * Minute) false
           (fun _ => Faults.none)).1 eventID
         = (remaining bookedTwoDB eventID).map
             (fun r => r + reclaimedTickets bookedTwoDB (16 * Minute) eventID)) ∧
    statusOf (bookingService.ProcessExpiredBookings bookedTwoDB (16 * Minute) false
      (fun _ => Faults.none)).1 1 = some BookingStatus.CANCELLED ∧
    remaining (bookingService.ProcessExpiredBookings bookedTwoDB (16 * Minute) false
      (fun _ => Faults.none)).1 1 = some 10 :=
  ⟨by decide, by decide, by decide,
   reclaim_sweep_effect bookedTwoDB (16 * Minute) (by decide), by decide, by decide⟩

/-- C14.  ProcessExpiredBookings returns an error exactly when fetching the
expired list fails.  Otherwise, whatever store calls fail during the
cancellations, it returns nil and has run the loop over the whole list: the
record of its iterations names the ids of the list in order; every booking
whose CancelBooking call returned nil is CANCELLED at the end; and (primary
keys being unique) the call of every listed booking during which no store call
fails does return nil, whatever happened to the bookings before it. -/
theorem sweep_survives_failures (db : DB) (now : Time) (faults : Int → Faults)
    (hwf : (db.bookings.map (fun b => b.ID)).Nodup) :
    (∀ failList, (bookingService.ProcessExpiredBookings db now failList faults).2 ≠ none ↔
      failList = true) ∧
    ∃ expired, bookingRepository.GetExpiredPending db false now = Except.ok expired ∧
      bookingService.ProcessExpiredBookings db now false faults
        = ((cancelAllTrace now faults db expired).1, none) ∧
      (cancelAllTrace now faults db expired).2.map Prod.fst = expired.map (fun b => b.ID) ∧
      (∀ id, (id, none) ∈ (cancelAllTrace now faults db expired).2 →
        statusOf (cancelAllTrace now faults db expired).1 id = some BookingStatus.CANCELLED) ∧
      (∀ b ∈ expired, faults b.ID = Faults.none →
        (b.ID, none) ∈ (cancelAllTrace now faults db expired).2) := by
  refine ⟨?_, _, rfl, ?_, cancelAllTrace_ids now faults _ db,
    cancelAllTrace_nil_cancelled now faults _ db, ?_⟩
  · intro failList
    cases failList <;>
      simp [bookingService.ProcessExpiredBookings, bookingRepository.GetExpiredPending]
  · simp only [bookingService.ProcessExpiredBookings, bookingRepository.GetExpiredPending,
      Bool.false_eq_true, if_false, cancelAllTrace_fst]
  · apply cancelAllTrace_no_fault now faults _ db (expired_nodup db now hwf)
    intro b hb
    have hm := expired_mem db now b hb
    exact ⟨b, find_of_nodup db.bookings hwf b hm.1, hm.2.1⟩

/-- C14 on two expired bookings: the status update fails while booking 1 is
cancelled; the sweep still returns nil, has tried bookings 1 and 2 in this
order, and booking 2 is CANCELLED while booking 1 is still PENDING. -/
theorem sweep_survives_failures_witness :
    (twoExpiredDB.bookings.map (fun b => b.ID)).Nodup ∧
    ((∀ failList,
        (bookingService.ProcessExpiredBookings twoExpiredDB 1000 failList failFirst).2 ≠ none ↔
        failList = true) ∧
     ∃ expired, bookingRepository.GetExpiredPending twoExpiredDB false 1000 = Except.ok expired ∧
      bookingService.ProcessExpiredBookings twoExpiredDB 1000 false failFirst
        = ((cancelAllTrace 1000 failFirst twoExpiredDB expired).1, none) ∧
      (cancelAllTrace 1000 failFirst twoExpiredDB expired).2.map Prod.fst
        = expired.map (fun b => b.ID) ∧
      (∀ id, (id, none) ∈ (cancelAllTrace 1000 failFirst twoExpiredDB expired).2 →
        statusOf (cancelAllTrace 1000 failFirst twoExpiredDB expired).1 id
          = some BookingStatus.CANCELLED) ∧
      (∀ b ∈ expired, failFirst b.ID = Faults.none →
        (b.ID, none) ∈ (cancelAllTrace 1000 failFirst twoExpiredDB expired).2)) ∧
    (cancelAllTrace 1000 failFirst twoExpiredDB twoExpiredDB.bookings).2
      = [(1, some (Error.failedToCancel Error.bookingNotFound)), (2, none)] ∧
    statusOf (bookingService.ProcessExpiredBookings twoExpiredDB 1000 false failFirst).1 1
      = some BookingStatus.PENDING ∧
    statusOf (bookingService.ProcessExpiredBookings twoExpiredDB 1000 false failFirst).1 2
      = some BookingStatus.CANCELLED ∧
    remaining (bookingService.ProcessExpiredBookings twoExpiredDB 1000 false failFirst).1 1
      = some 8 :=
  ⟨by decide, sweep_survives_failures twoExpiredDB 1000 failFirst (by decide),
   by decide, by decide, by decide, by decide⟩

/-- C15, the claim refuted: the stored PENDING booking with deadline 100 is
not in the list GetExpiredPending returns at `now = 100`. -/
theorem expired_listing_excludes_deadline :
    pendingBooking ∈ pendingDB.bookings ∧
    pendingBooking.Status = BookingStatus.PENDING ∧
    pendingBooking.ExpiresAt ≤ 100 ∧
    bookingRepository.GetExpiredPending pendingDB false 100 = Except.ok [] :=
  ⟨by decide, by decide, by decide, rfl⟩

/-- C15 as amended.  GetExpiredPending (the query not failing) returns the
stored bookings with status PENDING whose `ExpiresAt` is strictly before
`now`, each as often as it is stored and no other booking, ordered by
`ExpiresAt` ascending; a booking with `ExpiresAt = now` is not in the list. -/
theorem expired_listing_strict (db : DB) (now : Time) :
    ∃ l, bookingRepository.GetExpiredPending db false now = Except.ok l ∧
      l.Perm (db.bookings.filter
        (fun b => b.Status = BookingStatus.PENDING && b.ExpiresAt < now)) ∧
      (∀ b, b ∈ l ↔
        b ∈ db.bookings ∧ b.Status = BookingStatus.PENDING ∧ b.ExpiresAt < now) ∧
      (∀ b ∈ l, b.ExpiresAt ≠ now) ∧
      l.Sorted (fun a b => a.ExpiresAt ≤ b.ExpiresAt) := by
  refine ⟨_, rfl, List.perm_insertionSort _ _, ?_, ?_, ?_⟩
  · intro b
    rw [List.mem_insertionSort, List.mem_filter]
    simp
  · intro b hb
    rw [List.mem_insertionSort, List.mem_filter] at hb
    have : b.ExpiresAt < now := (by simpa using hb.2 :
      b.Status = BookingStatus.PENDING ∧ b.ExpiresAt < now).2
    exact ne_of_lt this
  · exact @List.sorted_insertionSort Booking (fun a b => a.ExpiresAt ≤ b.ExpiresAt) _
      ⟨fun a b => le_total a.ExpiresAt b.ExpiresAt⟩
      ⟨fun _ _ _ h1 h2 => le_trans h1 h2⟩ _

/-- C16.  For a stored PENDING booking and a time `now` strictly before its
`ExpiresAt`, ConfirmPayment with no store call failing returns nil; the stored
booking is then CONFIRMED with `confirmed_at = now`, and the events, hence
every remaining count, are unchanged. -/
theorem confirmation_succeeds (db : DB) (now : Time) (id : Int) (b : Booking)
    (hfind : db.bookings.find? (fun b => b.ID = id) = some b)
    (hst : b.Status = BookingStatus.PENDING) (hnow : now < b.ExpiresAt) :
    (bookingService.ConfirmPayment db now Faults.none id).2 = none ∧
    statusOf (bookingService.ConfirmPayment db now Faults.none id).1 id
      = some BookingStatus.CONFIRMED ∧
    ((bookingService.ConfirmPayment db now Faults.none id).1.bookings.find?
        (fun b => b.ID = id)).map (fun b => b.ConfirmedAt) = some (some now) ∧
    (bookingService.ConfirmPayment db now Faults.none id).1.events = db.events ∧
    ∀ eventID, remaining (bookingService.ConfirmPayment db now Faults.none id).1 eventID
      = remaining db eventID := by
  have hexp : ¬ now > b.ExpiresAt := not_lt.2 (le_of_lt hnow)
  have h2 : bookingService.ConfirmPayment db now Faults.none id
      = (DB.mk db.events (db.bookings.map (fun x =>
          if x.ID = id then applyStatus BookingStatus.CONFIRMED now x else x))
          db.nextBookingID, none) := by
    simp [bookingService.ConfirmPayment, bookingRepository.GetByID, Faults.none, hfind, hst,
      hexp, UpdateStatus_found db now id BookingStatus.CONFIRMED b hfind]
  rw [h2]
  refine ⟨rfl, ?_, ?_, rfl, fun _ => rfl⟩
  · rw [statusOf_update db db.events db.nextBookingID _ (applyStatus_ID _ _) id b hfind,
      applyStatus_Status]
  · show Option.map _ ((db.bookings.map _).find? _) = _
    rw [find_update_eq db.bookings _ (applyStatus_ID _ _) id b hfind]
    rfl

/-- C16 on scenario A: 3 of 10 tickets booked at time 0, confirmed at time 1;
the booking is CONFIRMED and the remaining count stays 7. -/
theorem confirmation_succeeds_witness :
    remaining bookedDB 1 = some 7 ∧
    ((bookingService.ConfirmPayment bookedDB 1 Faults.none 1).2 = none ∧
     statusOf (bookingService.ConfirmPayment bookedDB 1 Faults.none 1).1 1
       = some BookingStatus.CONFIRMED ∧
     ((bookingService.ConfirmPayment bookedDB 1 Faults.none 1).1.bookings.find?
        (fun b => b.ID = 1)).map (fun b => b.ConfirmedAt) = some (some 1) ∧
     (bookingService.ConfirmPayment bookedDB 1 Faults.none 1).1.events = bookedDB.events ∧
     ∀ eventID, remaining (bookingService.ConfirmPayment bookedDB 1 Faults.none 1).1 eventID
       = remaining bookedDB eventID) :=
  ⟨by decide,
   confirmation_succeeds bookedDB 1 1 (newBooking sampleService sampleDB 0 7
     { EventID := 1, TicketCount := 3 } sampleEvent) (by decide) (by decide) (by decide)⟩

/-- C17.  For a stored PENDING booking with ticket count `n` on an event with
remaining count `R`, CancelBooking with no store call failing returns nil; the
stored booking is then CANCELLED with `cancelled_at = now`, the remaining
count of its event is `R + n`, the remaining count of every other event is
unchanged, and the bookings are the former ones with only the rows of that id
rewritten, so every booking with another id is unchanged. -/
theorem cancellation_succeeds (db : DB) (now : Time) (id : Int) (b : Booking) (R : Int)
    (hfind : db.bookings.find? (fun b => b.ID = id) = some b)
    (hst : b.Status = BookingStatus.PENDING) (hrem : remaining db b.EventID = some R) :
    (bookingService.CancelBooking db now Faults.none id).2 = none ∧
    statusOf (bookingService.CancelBooking db now Faults.none id).1 id
      = some BookingStatus.CANCELLED ∧
    ((bookingService.CancelBooking db now Faults.none id).1.bookings.find?
        (fun b => b.ID = id)).map (fun b => b.CancelledAt) = some (some now) ∧
    remaining (bookingService.CancelBooking db now Faults.none id).1 b.EventID
      = some (R + b.TicketCount) ∧
    (∀ eventID, eventID ≠ b.EventID →
      remaining (bookingService.CancelBooking db now Faults.none id).1 eventID
        = remaining db eventID) ∧
    (bookingService.CancelBooking db now Faults.none id).1.bookings
      = db.bookings.map (fun x =>
          if x.ID = id then applyStatus BookingStatus.CANCELLED now x else x) ∧
    (∀ id2, id2 ≠ id →
      (bookingService.CancelBooking db now Faults.none id).1.bookings.find?
          (fun b => b.ID = id2) = db.bookings.find? (fun b => b.ID = id2)) := by
  have hid : b.ID = id := by simpa using (find_some_mem _ _ _ hfind).2
  rw [CancelBooking_pending db now id b hfind hst]
  refine ⟨rfl, ?_, ?_, ?_, ?_, ?_, ?_⟩
  · unfold cancelledDB
    rw [hid, statusOf_update db _ db.nextBookingID _ (applyStatus_ID _ _) id b hfind,
      applyStatus_Status]
  · show Option.map _ ((db.bookings.map _).find? _) = _
    rw [hid, find_update_eq db.bookings _ (applyStatus_ID _ _) id b hfind]
    rfl
  · rw [remaining_cancelledDB, hrem]
    simp
  · intro eventID hne
    rw [remaining_cancelledDB]
    cases remaining db eventID <;> simp [hne]
  · show db.bookings.map _ = _
    rw [hid]
  · intro id2 hne
    show (db.bookings.map _).find? _ = _
    rw [hid]
    exact find_update_ne db.bookings _ (applyStatus_ID _ _) id id2 hne

/-- C17 on the booked sample state: cancelling the booking of 3 tickets
returns the remaining count from 7 to 10. -/
theorem cancellation_succeeds_witness :
    remaining bookedDB 1 = some 7 ∧
    ((bookingService.CancelBooking bookedDB 5 Faults.none 1).2 = none ∧
     statusOf (bookingService.CancelBooking bookedDB 5 Faults.none 1).1 1
       = some BookingStatus.CANCELLED ∧
     ((bookingService.CancelBooking bookedDB 5 Faults.none 1).1.bookings.find?
        (fun b => b.ID = 1)).map (fun b => b.CancelledAt) = some (some 5) ∧
     remaining (bookingService.CancelBooking bookedDB 5 Faults.none 1).1 1 = some (7 + 3) ∧
     (∀ eventID, eventID ≠ 1 →
       remaining (bookingService.CancelBooking bookedDB 5 Faults.none 1).1 eventID
         = remaining bookedDB eventID) ∧
     (bookingService.CancelBooking bookedDB 5 Faults.none 1).1.bookings
       = bookedDB.bookings.map (fun x =>
           if x.ID = 1 then applyStatus BookingStatus.CANCELLED 5 x else x) ∧
     (∀ id2, id2 ≠ 1 →
       (bookingService.CancelBooking bookedDB 5 Faults.none 1).1.bookings.find?
           (fun b => b.ID = id2) = bookedDB.bookings.find? (fun b => b.ID = id2))) :=
  ⟨by decide,
   cancellation_succeeds bookedDB 5 1 (newBooking sampleService sampleDB 0 7
     { EventID := 1, TicketCount := 3 } sampleEvent) 7 (by decide) (by decide) (by decide)⟩

/-- C18.  For a stored CONFIRMED booking, CancelBooking leaves the database as
it was, whatever store calls fail: the booking stays CONFIRMED and every
remaining count is unchanged.  The call returns an error, which is "cannot
cancel confirmed booking" whenever the read of the booking does not fail. -/
theorem confirmed_cannot_be_cancelled (db : DB) (now : Time) (f : Faults) (id : Int)
    (b : Booking) (hfind : db.bookings.find? (fun b => b.ID = id) = some b)
    (hst : b.Status = BookingStatus.CONFIRMED) :
    (bookingService.CancelBooking db now f id).1 = db ∧
    statusOf (bookingService.CancelBooking db now f id).1 id = some BookingStatus.CONFIRMED ∧
    remaining (bookingService.CancelBooking db now f id).1 b.EventID = remaining db b.EventID ∧
    (bookingService.CancelBooking db now f id).2 ≠ none ∧
    (f.getByID = false →
      (bookingService.CancelBooking db now f id).2 = some Error.cannotCancelConfirmed) := by
  have hdb : (bookingService.CancelBooking db now f id).1 = db := by
    cases hf : f.getByID <;>
      simp [bookingService.CancelBooking, bookingRepository.GetByID, hf, hfind, hst]
  refine ⟨hdb, ?_, ?_, ?_, ?_⟩
  · rw [hdb]; simp [statusOf, hfind, hst]
  · rw [hdb]
  · cases hf : f.getByID <;>
      simp [bookingService.CancelBooking, bookingRepository.GetByID, hf, hfind, hst]
  · intro hf
    simp [bookingService.CancelBooking, bookingRepository.GetByID, hf, hfind, hst]

/-- C18 on scenario D: the confirmed booking of 3 tickets, 7 remaining. -/
theorem confirmed_cannot_be_cancelled_witness :
    (bookingService.CancelBooking confirmedSampleDB 60 Faults.none 1).1 = confirmedSampleDB ∧
    statusOf (bookingService.CancelBooking confirmedSampleDB 60 Faults.none 1).1 1
      = some BookingStatus.CONFIRMED ∧
    remaining (bookingService.CancelBooking confirmedSampleDB 60 Faults.none 1).1
      confirmedBooking.EventID = remaining confirmedSampleDB confirmedBooking.EventID ∧
    (bookingService.CancelBooking confirmedSampleDB 60 Faults.none 1).2 ≠ none ∧
    (Faults.none.getByID = false →
      (bookingService.CancelBooking confirmedSampleDB 60 Faults.none 1).2
        = some Error.cannotCancelConfirmed) :=
  confirmed_cannot_be_cancelled confirmedSampleDB 60 Faults.none 1 confirmedBooking
    (by decide) (by decide)

/-- C19.  For a stored booking whose status is not PENDING and any time `now`,
before or after its deadline, ConfirmPayment leaves the database as it was
(booking and inventory), whatever store calls fail.  The call returns an
error, which is "booking is not in pending status", and so not "booking has
expired", whenever the read of the booking does not fail. -/
theorem confirm_from_wrong_state_rejected (db : DB) (now : Time) (f : Faults) (id : Int)
    (b : Booking) (hfind : db.bookings.find? (fun b => b.ID = id) = some b)
    (hst : b.Status ≠ BookingStatus.PENDING) :
    (bookingService.ConfirmPayment db now f id).1 = db ∧
    (bookingService.ConfirmPayment db now f id).2 ≠ none ∧
    (bookingService.ConfirmPayment db now f id).2 ≠ some Error.bookingHasExpired ∧
    (f.getByID = false →
      (bookingService.ConfirmPayment db now f id).2 = some Error.notInPendingStatus) := by
  cases hf : f.getByID <;>
    simp [bookingService.ConfirmPayment, bookingRepository.GetByID, hf, hfind, hst]

/-- C19 on the confirmed sample booking (deadline 100), at `now = 60` before
the deadline and `now = 200` after it. -/
theorem confirm_from_wrong_state_rejected_witness :
    ((bookingService.ConfirmPayment confirmedSampleDB 60 Faults.none 1).1 = confirmedSampleDB ∧
     (bookingService.ConfirmPayment confirmedSampleDB 60 Faults.none 1).2 ≠ none ∧
     (bookingService.ConfirmPayment confirmedSampleDB 60 Faults.none 1).2
        ≠ some Error.bookingHasExpired ∧
     (Faults.none.getByID = false →
       (bookingService.ConfirmPayment confirmedSampleDB 60 Faults.none 1).2
         = some Error.notInPendingStatus)) ∧
    (bookingService.ConfirmPayment confirmedSampleDB 200 Faults.none 1).2
      = some Error.notInPendingStatus :=
  ⟨confirm_from_wrong_state_rejected confirmedSampleDB 60 Faults.none 1 confirmedBooking
     (by decide) (by decide),
   by decide⟩

/-- C20.  Take any state, any of the four calls, executed at any time and
with any store calls failing, and the booking `b` stored under an id.  If `b`
is CONFIRMED or CANCELLED, the booking stored under that id after the call is
`b` itself: same status, `confirmed_at`, `cancelled_at` and every other field.
In every case a booking is still stored under the id, and its status is the
one of `b` unless `b` was PENDING and it is now CONFIRMED or CANCELLED. -/
theorem terminal_states_immutable (s : bookingService) (db : DB) (env : Env) (c : Call)
    (id : Int) (b : Booking) (hfind : db.bookings.find? (fun b => b.ID = id) = some b) :
    ((b.Status = BookingStatus.CONFIRMED ∨ b.Status = BookingStatus.CANCELLED) →
      (exec s db env c).bookings.find? (fun b => b.ID = id) = some b) ∧
    ∃ b2, (exec s db env c).bookings.find? (fun b => b.ID = id) = some b2 ∧
      (b2.Status = b.Status ∨
        (b.Status = BookingStatus.PENDING ∧
          (b2.Status = BookingStatus.CONFIRMED ∨ b2.Status = BookingStatus.CANCELLED))) := by
  rcases rowsFrame_exec s db env c id b hfind with h | ⟨hp, st, t, hst, h⟩
  · exact ⟨fun _ => h, b, h, Or.inl rfl⟩
  · refine ⟨?_, _, h, Or.inr ⟨hp, ?_⟩⟩
    · intro hterm
      rw [hp] at hterm
      rcases hterm with h1 | h1 <;> cases h1
    · rw [applyStatus_Status]
      exact hst

/-- C20 on the confirmed sample booking: a CancelBooking and a reclaim sweep
long after its deadline both leave it as it is. -/
theorem terminal_states_immutable_witness :
    (exec sampleService confirmedSampleDB (Env.ok 200) (Call.cancelBooking 1)).bookings.find?
      (fun b => b.ID = 1) = some confirmedBooking ∧
    (exec sampleService confirmedSampleDB (Env.ok 200) Call.processExpiredBookings).bookings.find?
      (fun b => b.ID = 1) = some confirmedBooking :=
  ⟨(terminal_states_immutable sampleService confirmedSampleDB (Env.ok 200) (Call.cancelBooking 1)
      1 confirmedBooking (by decide)).1 (Or.inl (by decide)),
   (terminal_states_immutable sampleService confirmedSampleDB (Env.ok 200)
      Call.processExpiredBookings 1 confirmedBooking (by decide)).1 (Or.inl (by decide))⟩

/-- C21.  Take the booking `b` stored under an id.  (1) After any call of the
booking service (ConfirmPayment, CancelBooking, ProcessExpiredBookings, and
CreateBooking as well), at any time and whatever store calls fail, a booking
is still stored under that id and it has the `TotalPrice`, `ExpiresAt`,
`TicketCount`, `UserID` and `EventID` of `b`.  (2) The same holds after
`bookingRepository.UpdateStatus` with any id and any new status, rejected by
the database or not; the stored booking is then `b` itself or `b` rewritten by
`applyStatus`, its `confirmed_at` differs from the one of `b` only when the new
status is CONFIRMED and its `cancelled_at` only when the new status is
CANCELLED; no event row and not the id sequence is written. -/
theorem price_and_deadline_fixed (s : bookingService) (db : DB) (env : Env) (c : Call)
    (fail : Bool) (now : Time) (target : Int) (st : BookingStatus)
    (id : Int) (b : Booking) (hfind : db.bookings.find? (fun b => b.ID = id) = some b) :
    (∃ b2, (exec s db env c).bookings.find? (fun b => b.ID = id) = some b2 ∧ fixedFields b b2) ∧
    (∃ b2, (bookingRepository.UpdateStatus db fail now target st).1.bookings.find?
          (fun b => b.ID = id) = some b2 ∧
        fixedFields b b2 ∧
        (b2 = b ∨ b2 = applyStatus st now b) ∧
        (b2.Status = b.Status ∨ b2.Status = st) ∧
        (b2.ConfirmedAt ≠ b.ConfirmedAt → st = BookingStatus.CONFIRMED) ∧
        (b2.CancelledAt ≠ b.CancelledAt → st = BookingStatus.CANCELLED)) ∧
    (bookingRepository.UpdateStatus db fail now target st).1.events = db.events ∧
    (bookingRepository.UpdateStatus db fail now target st).1.nextBookingID
      = db.nextBookingID := by
  refine ⟨?_, ?_, UpdateStatus_events db fail now target st⟩
  · rcases rowsFrame_exec s db env c id b hfind with h | ⟨_, st2, t, _, h⟩
    · exact ⟨b, h, fixedFields_refl b⟩
    · exact ⟨_, h, fixedFields_applyStatus st2 t b⟩
  · rw [UpdateStatus_bookings]
    cases fail
    · simp only [Bool.false_eq_true, if_false]
      rw [find_update db.bookings _ (applyStatus_ID _ _) target id, hfind]
      by_cases ht : b.ID = target
      · refine ⟨applyStatus st now b, by simp [ht], fixedFields_applyStatus st now b,
          Or.inr rfl, Or.inr (applyStatus_Status _ _ _), applyStatus_ConfirmedAt st now b,
          applyStatus_CancelledAt st now b⟩
      · exact ⟨b, by simp [ht], fixedFields_refl b, Or.inl rfl, Or.inl rfl,
          fun h => absurd rfl h, fun h => absurd rfl h⟩
    · exact ⟨b, by simpa using hfind, fixedFields_refl b, Or.inl rfl, Or.inl rfl,
        fun h => absurd rfl h, fun h => absurd rfl h⟩

/-- C21 on the PENDING sample booking (2 tickets, deadline 100): after a
ConfirmPayment at time 50 and after UpdateStatus to CANCELLED at time 60. -/
theorem price_and_deadline_fixed_witness :
    (∃ b2, (exec sampleService pendingDB (Env.ok 50) (Call.confirmPayment 1)).bookings.find?
        (fun b => b.ID = 1) = some b2 ∧ fixedFields pendingBooking b2) ∧
    (∃ b2, (bookingRepository.UpdateStatus pendingDB false 60 1
          BookingStatus.CANCELLED).1.bookings.find? (fun b => b.ID = 1) = some b2 ∧
        fixedFields pendingBooking b2 ∧
        (b2 = pendingBooking ∨ b2 = applyStatus BookingStatus.CANCELLED 60 pendingBooking) ∧
        (b2.Status = pendingBooking.Status ∨ b2.Status = BookingStatus.CANCELLED) ∧
        (b2.ConfirmedAt ≠ pendingBooking.ConfirmedAt →
          BookingStatus.CANCELLED = BookingStatus.CONFIRMED) ∧
        (b2.CancelledAt ≠ pendingBooking.CancelledAt →
          BookingStatus.CANCELLED = BookingStatus.CANCELLED)) ∧
    (bookingRepository.UpdateStatus pendingDB false 60 1 BookingStatus.CANCELLED).1.events
      = pendingDB.events ∧
    (bookingRepository.UpdateStatus pendingDB false 60 1 BookingStatus.CANCELLED).1.nextBookingID
      = pendingDB.nextBookingID :=
  price_and_deadline_fixed sampleService pendingDB (Env.ok 50) (Call.confirmPayment 1) false 60 1
    BookingStatus.CANCELLED 1 pendingBooking (by decide)

/-- C22, the claim refuted: on the sample event with 10 tickets,
DecrementTickets with count -5 returns nil and raises the remaining count to
15, and IncrementTickets with count -5 returns nil and lowers it to 5. -/
theorem store_accepts_negative_count :
    remaining sampleDB 1 = some 10 ∧
    (eventRepository.DecrementTickets sampleDB false 1 (-5)).2 = none ∧
    remaining (eventRepository.DecrementTickets sampleDB false 1 (-5)).1 1 = some 15 ∧
    (eventRepository.IncrementTickets sampleDB false 1 (-5)).2 = none ∧
    remaining (eventRepository.IncrementTickets sampleDB false 1 (-5)).1 1 = some 5 := by
  decide

/-- C22 as amended.  The inventory store does not look at the sign of the
count.  For an existing event with remaining count `R ≥ 0` and a count `≤ 0`,
the statements not being rejected by the database, DecrementTickets returns nil
and leaves `R - count`, and IncrementTickets returns nil and leaves
`R + count`; the remaining count is unchanged exactly when the count is 0. -/
theorem store_ignores_sign_of_count (db : DB) (id count : Int) (ev : Event)
    (hfind : db.events.find? (fun e => e.ID = id) = some ev)
    (hR : 0 ≤ ev.TotalTickets) (hcount : count ≤ 0) :
    (eventRepository.DecrementTickets db false id count).2 = none ∧
    remaining (eventRepository.DecrementTickets db false id count).1 id
      = some (ev.TotalTickets - count) ∧
    (eventRepository.IncrementTickets db false id count).2 = none ∧
    remaining (eventRepository.IncrementTickets db false id count).1 id
      = some (ev.TotalTickets + count) ∧
    (ev.TotalTickets - count = ev.TotalTickets ↔ count = 0) ∧
    (ev.TotalTickets + count = ev.TotalTickets ↔ count = 0) := by
  have hge : ¬ ev.TotalTickets < count := by omega
  refine ⟨?_, remaining_decrement db id count ev hfind hge, rfl,
    remaining_increment db id count ev hfind, ?_, ?_⟩
  · rw [DecrementTickets_found db id count ev hfind hge]
  · constructor <;> intro h <;> omega
  · constructor <;> intro h <;> omega

/-- C22 as amended, on the sample event with 10 tickets and the counts -5. -/
theorem store_ignores_sign_of_count_witness :
    (eventRepository.DecrementTickets sampleDB false 1 (-5)).2 = none ∧
    remaining (eventRepository.DecrementTickets sampleDB false 1 (-5)).1 1
      = some (sampleEvent.TotalTickets - (-5)) ∧
    (eventRepository.IncrementTickets sampleDB false 1 (-5)).2 = none ∧
    remaining (eventRepository.IncrementTickets sampleDB false 1 (-5)).1 1
      = some (sampleEvent.TotalTickets + (-5)) ∧
    (sampleEvent.TotalTickets - (-5) = sampleEvent.TotalTickets ↔ (-5 : Int) = 0) ∧
    (sampleEvent.TotalTickets + (-5) = sampleEvent.TotalTickets ↔ (-5 : Int) = 0) :=
  store_ignores_sign_of_count sampleDB 1 (-5) sampleEvent (by decide) (by decide) (by decide)

/-- C23, the claim refuted: DecrementTickets on the unknown event 9 returns
"not enough tickets available", the very error it returns for 11 tickets of
the existing event 1 that has 10; there is no not-found error. -/
theorem reserve_unknown_event_not_distinct :
    sampleDB.events.find? (fun e => e.ID = 9) = none ∧
    (eventRepository.DecrementTickets sampleDB false 9 1).2 = some Error.notEnoughTickets ∧
    (eventRepository.DecrementTickets sampleDB false 1 11).2 = some Error.notEnoughTickets ∧
    (eventRepository.DecrementTickets sampleDB false 9 1).2 ≠ some Error.eventNotFound := by
  decide

/-- C23 as amended.  For an event id with no stored event and every count,
DecrementTickets, rejected by the database or not, returns "not enough tickets
available", the error of insufficient inventory, and changes nothing.  The
error "event not found" for an unknown event comes from CreateBooking, which
reads the event before it calls DecrementTickets: the transaction being
opened, it returns "event not found", a nil booking and changes nothing. -/
theorem reserve_unknown_event (s : bookingService) (db : DB) (now : Time) (f : Faults)
    (fail : Bool) (userID id count : Int)
    (hfind : db.events.find? (fun e => e.ID = id) = none) :
    eventRepository.DecrementTickets db fail id count = (db, some Error.notEnoughTickets) ∧
    (f.txBegin = false →
      s.CreateBooking db now f userID { EventID := id, TicketCount := count }
        = (db, none, some Error.eventNotFound)) := by
  refine ⟨?_, ?_⟩
  · unfold eventRepository.DecrementTickets
    cases fail
    · have h := events_map_of_find_none db.events
        (fun e => { e with TotalTickets := e.TotalTickets - count })
        (decrementMatches id count) id (by
          intro e he
          simp only [decrementMatches, Bool.and_eq_true, decide_eq_true_eq] at he
          exact he.1) hfind
      simp only [Bool.false_eq_true, if_false, h.1, h.2, if_true]
    · rfl
  · intro hb
    cases hl : f.lockForUpdate <;>
      simp [bookingService.CreateBooking, Transaction, eventRepository.LockForUpdate, hb, hl,
        hfind]

/-- C23 as amended, on the sample state and the unknown event 9. -/
theorem reserve_unknown_event_witness :
    eventRepository.DecrementTickets sampleDB false 9 1
      = (sampleDB, some Error.notEnoughTickets) ∧
    (Faults.none.txBegin = false →
      sampleService.CreateBooking sampleDB 0 Faults.none 7 { EventID := 9, TicketCount := 1 }
        = (sampleDB, none, some Error.eventNotFound)) :=
  reserve_unknown_event sampleService sampleDB 0 Faults.none false 7 9 1 (by decide)

/-- C24.  For a stored PENDING booking and any time `now`: ConfirmPayment at
`now` with no store call failing either returns nil or returns "booking has
expired"; it returns nil exactly when GetExpiredPending at the same `now` does
not list the booking, and "booking has expired" exactly when it does.  So the
booking is never both confirmable and listed for reclaim, and never neither.
The booking is confirmable exactly when `now ≤ ExpiresAt`. -/
theorem confirmable_xor_reclaimable (db : DB) (now : Time) (id : Int) (b : Booking)
    (hfind : db.bookings.find? (fun b => b.ID = id) = some b)
    (hst : b.Status = BookingStatus.PENDING) :
    ((bookingService.ConfirmPayment db now Faults.none id).2 = none ↔
      ¬ ∃ l, bookingRepository.GetExpiredPending db false now = Except.ok l ∧ b ∈ l) ∧
    ((bookingService.ConfirmPayment db now Faults.none id).2 = some Error.bookingHasExpired ↔
      ∃ l, bookingRepository.GetExpiredPending db false now = Except.ok l ∧ b ∈ l) ∧
    ((bookingService.ConfirmPayment db now Faults.none id).2 = none ∨
      (bookingService.ConfirmPayment db now Faults.none id).2
        = some Error.bookingHasExpired) ∧
    ((bookingService.ConfirmPayment db now Faults.none id).2 = none ↔ now ≤ b.ExpiresAt) := by
  have hmem : b ∈ db.bookings := (find_some_mem _ _ _ hfind).1
  have hlist : (∃ l, bookingRepository.GetExpiredPending db false now = Except.ok l ∧ b ∈ l) ↔
      b.ExpiresAt < now := by
    constructor
    · rintro ⟨l, hl, hb⟩
      have hl2 : l = (db.bookings.filter
          (fun b => b.Status = BookingStatus.PENDING && b.ExpiresAt < now)).insertionSort
            (fun a b => a.ExpiresAt ≤ b.ExpiresAt) := by
        have := hl
        simp only [bookingRepository.GetExpiredPending, Bool.false_eq_true, if_false,
          Except.ok.injEq] at this
        exact this.symm
      rw [hl2] at hb
      exact (expired_mem db now b hb).2.2
    · intro hlt
      refine ⟨_, rfl, ?_⟩
      rw [List.mem_insertionSort, List.mem_filter]
      exact ⟨hmem, by simp [hst, hlt]⟩
  by_cases hexp : now > b.ExpiresAt
  · have hres : (bookingService.ConfirmPayment db now Faults.none id).2
        = some Error.bookingHasExpired := by
      simp [bookingService.ConfirmPayment, bookingRepository.GetByID, Faults.none, hfind, hst,
        hexp]
    have hlt : b.ExpiresAt < now := hexp
    rw [hres, hlist]
    refine ⟨?_, ?_, Or.inr rfl, ?_⟩
    · constructor
      · intro h; cases h
      · intro h; exact absurd hlt h
    · exact ⟨fun _ => hlt, fun _ => rfl⟩
    · constructor
      · intro h; cases h
      · intro h; exact absurd hlt (not_lt.2 h)
  · have hres : (bookingService.ConfirmPayment db now Faults.none id).2 = none := by
      simp [bookingService.ConfirmPayment, bookingRepository.GetByID, Faults.none, hfind, hst,
        hexp, UpdateStatus_found db now id BookingStatus.CONFIRMED b hfind]
    have hnlt : ¬ b.ExpiresAt < now := hexp
    rw [hres, hlist]
    refine ⟨?_, ?_, Or.inl rfl, ?_⟩
    · exact ⟨fun _ => hnlt, fun _ => rfl⟩
    · constructor
      · intro h; cases h
      · intro h; exact absurd h hnlt
    · exact ⟨fun _ => not_lt.1 hnlt, fun _ => rfl⟩

/-- C24 on the PENDING sample booking at the instant of its deadline 100: it
is confirmable and not listed for reclaim. -/
theorem confirmable_xor_reclaimable_witness :
    ((bookingService.ConfirmPayment pendingDB 100 Faults.none 1).2 = none ↔
      ¬ ∃ l, bookingRepository.GetExpiredPending pendingDB false 100 = Except.ok l ∧
        pendingBooking ∈ l) ∧
    ((bookingService.ConfirmPayment pendingDB 100 Faults.none 1).2
        = some Error.bookingHasExpired ↔
      ∃ l, bookingRepository.GetExpiredPending pendingDB false 100 = Except.ok l ∧
        pendingBooking ∈ l) ∧
    ((bookingService.ConfirmPayment pendingDB 100 Faults.none 1).2 = none ∨
      (bookingService.ConfirmPayment pendingDB 100 Faults.none 1).2
        = some Error.bookingHasExpired) ∧
    ((bookingService.ConfirmPayment pendingDB 100 Faults.none 1).2 = none ↔
      (100 : Time) ≤ pendingBooking.ExpiresAt) :=
  confirmable_xor_reclaimable pendingDB 100 1 pendingBooking (by decide) (by decide)

end BookingEvent
